import Mathlib

/-
Verification of the analysis engine of the redis-test-mcp-tools repository
against its natural-language specification.

The development shallowly embeds the Python modules
src/redis_test_mcp_tools/tools/ast_tools.py and
src/redis_test_mcp_tools/tools/test_tools.py:

* Python AST nodes relevant to the analysed code are embedded as the
  inductive types PyExpr / PyStmt (with the auxiliary structures PyArg,
  PyArguments, FuncSig).  Fields the Python code never touches
  (posonlyargs, kw_defaults, keywords of a ClassDef, type_comment, ...)
  are omitted.  Expressions that the code only ever passes to
  ast.unparse or ignores are collapsed into the otherExpr constructor.
* The filesystem plus the host-language parser (the "Parser Adapter"
  boundary of the spec) are modelled by the FileState type: for a given
  path the file is missing, not a Python file, unreadable, a file with a
  syntax error, or a file that parses to an embedded module.
* ast.walk (breadth-first traversal with a FIFO queue) is embedded by
  walkFromF; the fuel argument only bounds the number of loop steps and
  is chosen provably large enough (walk_perm below).
* Machine-level details that the claims do not touch (line/column
  offsets inside error messages, file sizes, mtime fields) are dropped.

All definitions are executable; theorems about concrete programs
evaluate by rfl / decide.
-/

/-! ## Python string primitives -/

/-- Python substring test on char lists: the needle occurs contiguously. -/
def listIn (needle : List Char) : List Char → Bool
  | [] => needle.isEmpty
  | c :: rest => needle.isPrefixOf (c :: rest) || listIn needle rest

/-- Python `needle in hay` for strings (contiguous substring). -/
def pyIn (needle hay : String) : Bool := listIn needle.data hay.data

/-- Python `s.startswith(pre)` (data-level so terms reduce by rfl). -/
def pyStartsWith (s pre : String) : Bool := pre.data.isPrefixOf s.data

/-- Python str.lower (ASCII case folding suffices for the analysed code). -/
def pyLower (s : String) : String := ⟨s.data.map Char.toLower⟩

/-- Replacement worker.  Python str.replace scans left to right and
replaces non-overlapping occurrences; the fuel argument (instantiated
with the length of the scanned list) only makes the recursion
structural and never runs out. -/
def replFuel (pat rep : List Char) : Nat → List Char → List Char
  | 0, l => l
  | _ + 1, [] => []
  | fuel + 1, c :: rest =>
    if pat.isPrefixOf (c :: rest) then
      rep ++ replFuel pat rep fuel (List.drop (pat.length - 1) rest)
    else c :: replFuel pat rep fuel rest

/-- Python `s.replace(pat, rep)` (the analysed code only calls it with
non-empty patterns). -/
def pyReplace (s pat rep : String) : String :=
  ⟨replFuel pat.data rep.data s.data.length s.data⟩

/-! ## Embedded Python AST -/

/-- Embedded Python expressions.  name/attribute/call/constants are the
shapes the analysed code inspects structurally; every other expression
form is otherExpr together with its child expressions. -/
inductive PyExpr where
  | name (id : String)
  | attribute (value : PyExpr) (attr : String)
  | call (func : PyExpr) (args : List PyExpr) (lineno : Nat)
  | constStr (s : String)
  | constInt (n : Int)
  | otherExpr (children : List PyExpr)

/-- One entry of ast.arguments: an arg node (name plus optional
annotation expression). -/
structure PyArg where
  arg : String
  annot : Option PyExpr

/-- ast.arguments restricted to the fields the analysed code reads
(posonlyargs and kw_defaults are never touched by it). -/
structure PyArguments where
  args : List PyArg
  vararg : Option PyArg
  kwonlyargs : List PyArg
  kwarg : Option PyArg
  defaults : List PyExpr

/-- The non-recursive data of a FunctionDef / AsyncFunctionDef node. -/
structure FuncSig where
  name : String
  isAsync : Bool
  args : PyArguments
  decorators : List PyExpr
  returns : Option PyExpr
  lineno : Nat

/-- An ast.alias entry: imported name and optional `as` alias. -/
abbrev PyAlias := String × Option String

/-- Embedded Python statements.  Statement forms whose inner structure
the analysed code never inspects are otherStmt, keeping their child
expressions and child statement list so traversal still sees nested
definitions (if/for/while/with/try bodies). -/
inductive PyStmt where
  | functionDef (sig : FuncSig) (body : List PyStmt)
  | classDef (name : String) (bases : List PyExpr) (decorators : List PyExpr)
      (lineno : Nat) (body : List PyStmt)
  | exprStmt (value : PyExpr) (lineno : Nat)
  | importStmt (names : List PyAlias) (lineno : Nat)
  | importFrom (module : Option String) (names : List PyAlias) (level : Nat) (lineno : Nat)
  | assign (targets : List PyExpr) (value : PyExpr) (lineno : Nat)
  | annAssign (target : PyExpr) (tyAnn : PyExpr) (value : Option PyExpr) (lineno : Nat)
  | otherStmt (exprs : List PyExpr) (body : List PyStmt) (lineno : Nat)

/-- An ast.Module: its statement list. -/
structure PyModule where
  body : List PyStmt

/-! Structural equality on the embedded AST.  Distinct AST occurrences
in one real source file always differ (at least in line numbers), so
structural equality is the embedded counterpart of CPython's node
identity; the hypotheses of the theorems below make that assumption
explicit where it matters. -/

mutual

/-- Structural equality of embedded expressions. -/
def PyExpr.beq : PyExpr → PyExpr → Bool
  | .name a, .name b => a == b
  | .attribute v1 a1, .attribute v2 a2 => PyExpr.beq v1 v2 && a1 == a2
  | .call f1 as1 l1, .call f2 as2 l2 => PyExpr.beq f1 f2 && PyExpr.beqList as1 as2 && l1 == l2
  | .constStr a, .constStr b => a == b
  | .constInt a, .constInt b => a == b
  | .otherExpr c1, .otherExpr c2 => PyExpr.beqList c1 c2
  | _, _ => false

/-- Structural equality of expression lists. -/
def PyExpr.beqList : List PyExpr → List PyExpr → Bool
  | [], [] => true
  | a :: as, b :: bs => PyExpr.beq a b && PyExpr.beqList as bs
  | _, _ => false

end

/-- Structural equality of optional expressions. -/
def optExprBeq : Option PyExpr → Option PyExpr → Bool
  | none, none => true
  | some a, some b => PyExpr.beq a b
  | _, _ => false

/-- Structural equality of arg entries. -/
def PyArg.beq (a b : PyArg) : Bool :=
  a.arg == b.arg && optExprBeq a.annot b.annot

/-- Structural equality of optional arg entries. -/
def optArgBeq : Option PyArg → Option PyArg → Bool
  | none, none => true
  | some a, some b => PyArg.beq a b
  | _, _ => false

/-- Structural equality of arg lists. -/
def argListBeq : List PyArg → List PyArg → Bool
  | [], [] => true
  | a :: as, b :: bs => PyArg.beq a b && argListBeq as bs
  | _, _ => false

/-- Structural equality of arguments nodes. -/
def PyArguments.beq (a b : PyArguments) : Bool :=
  argListBeq a.args b.args && optArgBeq a.vararg b.vararg &&
  argListBeq a.kwonlyargs b.kwonlyargs && optArgBeq a.kwarg b.kwarg &&
  PyExpr.beqList a.defaults b.defaults

/-- Structural equality of function signatures. -/
def FuncSig.beq (a b : FuncSig) : Bool :=
  a.name == b.name && a.isAsync == b.isAsync && PyArguments.beq a.args b.args &&
  PyExpr.beqList a.decorators b.decorators && optExprBeq a.returns b.returns &&
  a.lineno == b.lineno

mutual

/-- Structural equality of embedded statements. -/
def PyStmt.beq : PyStmt → PyStmt → Bool
  | .functionDef s1 b1, .functionDef s2 b2 => FuncSig.beq s1 s2 && PyStmt.beqList b1 b2
  | .classDef n1 ba1 d1 l1 b1, .classDef n2 ba2 d2 l2 b2 =>
      n1 == n2 && PyExpr.beqList ba1 ba2 && PyExpr.beqList d1 d2 && l1 == l2 &&
      PyStmt.beqList b1 b2
  | .exprStmt v1 l1, .exprStmt v2 l2 => PyExpr.beq v1 v2 && l1 == l2
  | .importStmt n1 l1, .importStmt n2 l2 => n1 == n2 && l1 == l2
  | .importFrom m1 n1 lv1 l1, .importFrom m2 n2 lv2 l2 =>
      m1 == m2 && n1 == n2 && lv1 == lv2 && l1 == l2
  | .assign t1 v1 l1, .assign t2 v2 l2 => PyExpr.beqList t1 t2 && PyExpr.beq v1 v2 && l1 == l2
  | .annAssign t1 a1 v1 l1, .annAssign t2 a2 v2 l2 =>
      PyExpr.beq t1 t2 && PyExpr.beq a1 a2 && optExprBeq v1 v2 && l1 == l2
  | .otherStmt e1 b1 l1, .otherStmt e2 b2 l2 =>
      PyExpr.beqList e1 e2 && PyStmt.beqList b1 b2 && l1 == l2
  | _, _ => false

/-- Structural equality of statement lists. -/
def PyStmt.beqList : List PyStmt → List PyStmt → Bool
  | [], [] => true
  | a :: as, b :: bs => PyStmt.beq a b && PyStmt.beqList as bs
  | _, _ => false

end

/-! ## Tree traversal: the embedding of ast.walk -/

/-- A traversable node: the module, a statement, or an expression.
(ast.arguments / ast.arg / ast.alias wrapper nodes carry no data the
analysed code dispatches on during a walk; they are flattened to their
expression children.) -/
inductive Node where
  | module (body : List PyStmt)
  | stmt (s : PyStmt)
  | expr (e : PyExpr)

/-- The expression children of an ast.arguments node, in CPython field
order: annotations of args, of vararg, of kwonlyargs, of kwarg, then
the default expressions. -/
def argExprs (a : PyArguments) : List PyExpr :=
  a.args.filterMap PyArg.annot ++ (a.vararg.bind PyArg.annot).toList ++
  a.kwonlyargs.filterMap PyArg.annot ++ (a.kwarg.bind PyArg.annot).toList ++
  a.defaults

/-- Direct child nodes, mirroring ast.iter_child_nodes (CPython field
order per constructor). -/
def children : Node → List Node
  | .module body => body.map .stmt
  | .stmt (.functionDef sig body) =>
      (argExprs sig.args).map .expr ++ body.map .stmt ++
      sig.decorators.map .expr ++ sig.returns.toList.map .expr
  | .stmt (.classDef _ bases decorators _ body) =>
      bases.map .expr ++ body.map .stmt ++ decorators.map .expr
  | .stmt (.exprStmt v _) => [.expr v]
  | .stmt (.importStmt _ _) => []
  | .stmt (.importFrom _ _ _ _) => []
  | .stmt (.assign targets v _) => targets.map .expr ++ [.expr v]
  | .stmt (.annAssign t ann v _) => [.expr t, .expr ann] ++ v.toList.map .expr
  | .stmt (.otherStmt exprs body _) => exprs.map .expr ++ body.map .stmt
  | .expr (.name _) => []
  | .expr (.attribute v _) => [.expr v]
  | .expr (.call f args _) => .expr f :: args.map .expr
  | .expr (.constStr _) => []
  | .expr (.constInt _) => []
  | .expr (.otherExpr cs) => cs.map .expr

mutual

/-- All nodes of a statement subtree (the statement itself first, then
the descendants of each child in order). -/
def nodesOfStmt : PyStmt → List Node
  | .functionDef ⟨nm, isAsync, ⟨args, va, kwo, kwa, defs⟩, decos, ret, ln⟩ body =>
      Node.stmt (.functionDef ⟨nm, isAsync, ⟨args, va, kwo, kwa, defs⟩, decos, ret, ln⟩ body) ::
      (nodesOfArgList args ++ nodesOfOptArg va ++ nodesOfArgList kwo ++ nodesOfOptArg kwa ++
       nodesOfExprList defs ++ nodesOfStmtList body ++ nodesOfExprList decos ++
       nodesOfOptExpr ret)
  | .classDef nm bases decos ln body =>
      Node.stmt (.classDef nm bases decos ln body) ::
      (nodesOfExprList bases ++ nodesOfStmtList body ++ nodesOfExprList decos)
  | .exprStmt v ln => Node.stmt (.exprStmt v ln) :: nodesOfExpr v
  | .importStmt ns ln => [Node.stmt (.importStmt ns ln)]
  | .importFrom m ns lv ln => [Node.stmt (.importFrom m ns lv ln)]
  | .assign ts v ln => Node.stmt (.assign ts v ln) :: (nodesOfExprList ts ++ nodesOfExpr v)
  | .annAssign t ann v ln =>
      Node.stmt (.annAssign t ann v ln) ::
      (nodesOfExpr t ++ nodesOfExpr ann ++ nodesOfOptExpr v)
  | .otherStmt es body ln =>
      Node.stmt (.otherStmt es body ln) :: (nodesOfExprList es ++ nodesOfStmtList body)

/-- All nodes of the subtrees of a statement list. -/
def nodesOfStmtList : List PyStmt → List Node
  | [] => []
  | s :: rest => nodesOfStmt s ++ nodesOfStmtList rest

/-- All nodes of an expression subtree. -/
def nodesOfExpr : PyExpr → List Node
  | .name id => [Node.expr (.name id)]
  | .attribute v a => Node.expr (.attribute v a) :: nodesOfExpr v
  | .call f args ln => Node.expr (.call f args ln) :: (nodesOfExpr f ++ nodesOfExprList args)
  | .constStr s => [Node.expr (.constStr s)]
  | .constInt n => [Node.expr (.constInt n)]
  | .otherExpr cs => Node.expr (.otherExpr cs) :: nodesOfExprList cs

/-- All nodes of the subtrees of an expression list. -/
def nodesOfExprList : List PyExpr → List Node
  | [] => []
  | e :: rest => nodesOfExpr e ++ nodesOfExprList rest

/-- All nodes of an optional expression subtree. -/
def nodesOfOptExpr : Option PyExpr → List Node
  | none => []
  | some e => nodesOfExpr e

/-- All nodes of the annotations of an arg list. -/
def nodesOfArgList : List PyArg → List Node
  | [] => []
  | ⟨_, ann⟩ :: rest => nodesOfOptExpr ann ++ nodesOfArgList rest

/-- All nodes of the annotation of an optional arg. -/
def nodesOfOptArg : Option PyArg → List Node
  | none => []
  | some ⟨_, ann⟩ => nodesOfOptExpr ann

end

/-- All descendant nodes of a node, itself included. -/
def nodeNodes : Node → List Node
  | .module body => Node.module body :: nodesOfStmtList body
  | .stmt s => nodesOfStmt s
  | .expr e => nodesOfExpr e

/-- One-queue breadth-first traversal: pop the front node, yield it,
push its children at the back.  This is exactly the loop of ast.walk;
the fuel argument only bounds the number of loop iterations and is
always instantiated large enough to exhaust the queue. -/
def walkFromF : Nat → List Node → List Node
  | _, [] => []
  | 0, q => q
  | fuel + 1, n :: rest => n :: walkFromF fuel (rest ++ children n)

/-- ast.walk over a parsed module: breadth-first from the Module node. -/
def pyWalk (m : PyModule) : List Node :=
  walkFromF (nodeNodes (Node.module m.body)).length [Node.module m.body]

/-! ## The Parser Adapter boundary -/

/-- What the filesystem and host parser yield for one path: the file is
missing, has a non-Python extension, cannot be read (IO/decode
failure, carrying the exception text), fails to parse (carrying the
SyntaxError text), or parses to an embedded module. -/
inductive FileState where
  | missing
  | notPython
  | unreadable (msg : String)
  | syntaxError (msg : String)
  | parsed (m : PyModule)

/-- A filesystem snapshot: the state of every path. -/
abbrev PyFS := String → FileState

/-- Result of get_ast_from_file: a tree or an error dict (a dict whose
only key is the error string). -/
inductive AstResult where
  | tree (m : PyModule)
  | err (msg : String)

/-- Embedding of ast_tools.get_ast_from_file: existence check, Python
extension check, read, ast.parse; every failure is returned as an error
value with the message the source formats, never an exception. -/
def get_ast_from_file (fs : PyFS) (file_path : String) : AstResult :=
  match fs file_path with
  | .missing => .err ("File not found: " ++ file_path)
  | .notPython => .err ("Not a Python file: " ++ file_path)
  | .unreadable msg => .err ("Error parsing " ++ file_path ++ ": " ++ msg)
  | .syntaxError msg => .err ("Syntax error in " ++ file_path ++ ": " ++ msg)
  | .parsed m => .tree m

/-! ## ast.unparse -/

mutual

/-- Embedding of ast.unparse on the expression shapes the analysed code
can encounter.  otherExpr has no retained shape, so its source text is
abstracted by a fixed placeholder. -/
def unparse : PyExpr → String
  | .name id => id
  | .attribute v a => unparse v ++ "." ++ a
  | .call f args _ => unparse f ++ "(" ++ String.intercalate ", " (unparseList args) ++ ")"
  | .constStr s => "'" ++ s ++ "'"
  | .constInt n => toString n
  | .otherExpr _ => "<expr>"

/-- ast.unparse applied to each expression of a list. -/
def unparseList : List PyExpr → List String
  | [] => []
  | e :: rest => unparse e :: unparseList rest

end

/-! ## Extracted symbol records (the dict shapes ast_tools builds) -/

/-- One entry of the parameters list built by extract_function_info. -/
structure ParameterInfo where
  name : String
  type : Option String
  kind : String
  default : Option String := none
deriving DecidableEq, Repr

/-- The dict returned by extract_function_info (the visibility key is
absent there and added only by extract_class_info, hence optional). -/
structure FunctionInfo where
  name : String
  type : String
  docstring : Option String
  parameters : List ParameterInfo
  return_type : Option String
  decorators : List String
  line_number : Nat
  visibility : Option String := none
deriving DecidableEq, Repr

/-- One class-variable entry built by extract_class_info. -/
structure ClassVariable where
  name : String
  type : Option String
  line_number : Nat
deriving DecidableEq, Repr

/-- The dict returned by extract_class_info. -/
structure ClassInfo where
  name : String
  type : String
  docstring : Option String
  base_classes : List String
  methods : List FunctionInfo
  properties : List FunctionInfo
  class_variables : List ClassVariable
  decorators : List String
  line_number : Nat
deriving DecidableEq, Repr

/-- One import entry (name and level are present only for from-imports,
mirroring the two dict shapes the source builds). -/
structure ImportInfo where
  type : String
  module : String
  name : Option String := none
  asName : Option String
  level : Option Nat := none
  line_number : Nat
deriving DecidableEq, Repr

/-- The dict returned by parse_module_ast on success. -/
structure ModuleInfo where
  file_path : String
  functions : List FunctionInfo
  classes : List ClassInfo
  imports : List ImportInfo
  docstring : Option String
deriving DecidableEq, Repr

/-- A returned value that is either the payload dict or a dict holding
only an error string (the two shapes every tools function returns). -/
inductive PyResult (α : Type) where
  | err (msg : String)
  | ok (val : α)
deriving DecidableEq, Repr

/-! ## ast_tools: extraction -/

/-- Embedding of ast_tools.extract_docstring: a docstring is the leading
expression statement of a body when it is a string constant. -/
def extract_docstring : List PyStmt → Option String
  | .exprStmt (.constStr s) _ :: _ => some s
  | _ => none

/-- Embedding of ast_tools.get_type_annotation: unparse the annotation
expression if present.  (The except-branch of the source returning None
is unreachable here because the embedded unparse is total.) -/
def get_type_annot : Option PyExpr → Option String
  | none => none
  | some e => some (unparse e)

/-- Set the default field of the parameter at a (non-negative) index. -/
def setDefaultAt : List ParameterInfo → Nat → String → List ParameterInfo
  | [], _, _ => []
  | p :: rest, 0, d => { p with default := some d } :: rest
  | p :: rest, n + 1, d => p :: setDefaultAt rest n d

/-- Python list item assignment params[i].default = d, with Python's
negative-index wraparound.  An index below -len(params) would raise
IndexError in Python; that cannot occur for parser-produced arguments
(len(defaults) never exceeds len(args)), and the branch returns the
list unchanged. -/
def pySetDefault (ps : List ParameterInfo) (i : Int) (d : String) : List ParameterInfo :=
  let j : Int := if i < 0 then i + (ps.length : Int) else i
  if 0 ≤ j then setDefaultAt ps j.toNat d else ps

/-- The default-attachment loop of extract_function_info: the i-th
default goes to the parameter at index len(args.args) - len(defaults) + i
when that index is below len(params). -/
def attachDefaults (params : List ParameterInfo) (nargs : Nat) (defaults : List PyExpr) :
    List ParameterInfo :=
  defaults.enum.foldl
    (fun ps idxDef =>
      let param_index : Int := (nargs : Int) - (defaults.length : Int) + (idxDef.1 : Int)
      if param_index < (ps.length : Int) then pySetDefault ps param_index (unparse idxDef.2)
      else ps)
    params

/-- Embedding of ast_tools.extract_function_info: positional args, then
*args, then **kwargs, then keyword-only args, then the default values
attached to the tail of the positional parameters. -/
def extract_function_info (sig : FuncSig) (body : List PyStmt) : FunctionInfo :=
  let params :=
    sig.args.args.map (fun a => ({ name := a.arg, type := get_type_annot a.annot,
                                   kind := "positional" } : ParameterInfo)) ++
    (match sig.args.vararg with
     | some a => [({ name := a.arg, type := get_type_annot a.annot, kind := "vararg" } : ParameterInfo)]
     | none => []) ++
    (match sig.args.kwarg with
     | some a => [({ name := a.arg, type := get_type_annot a.annot, kind := "kwarg" } : ParameterInfo)]
     | none => []) ++
    sig.args.kwonlyargs.map (fun a => ({ name := a.arg, type := get_type_annot a.annot,
                                         kind := "keyword_only" } : ParameterInfo))
  { name := sig.name
    type := if sig.isAsync then "async_function" else "function"
    docstring := extract_docstring body
    parameters := attachDefaults params sig.args.args.length sig.args.defaults
    return_type := get_type_annot sig.returns
    decorators := sig.decorators.map unparse
    line_number := sig.lineno }

/-- The property test of extract_class_info: some decorator is the bare
name `property` or an attribute access whose attribute is `property`
(decorator-name equality, not string containment). -/
def isPropertyDecorated (decorators : List PyExpr) : Bool :=
  decorators.any fun dec =>
    match dec with
    | .name id => id == "property"
    | .attribute _ a => a == "property"
    | _ => false

/-- Embedding of ast_tools.extract_class_info.  The single body loop of
the source appends each item to exactly one of the three lists, so the
lists are rendered as independent passes over the body. -/
def extract_class_info (cname : String) (bases decorators : List PyExpr) (lineno : Nat)
    (body : List PyStmt) : ClassInfo :=
  { name := cname
    type := "class"
    docstring := extract_docstring body
    base_classes := bases.map unparse
    methods := body.filterMap fun item =>
      match item with
      | .functionDef sig fbody =>
        if isPropertyDecorated sig.decorators then none
        else some { extract_function_info sig fbody with
                    visibility := some (if pyStartsWith sig.name "_" then "private" else "public") }
      | _ => none
    properties := body.filterMap fun item =>
      match item with
      | .functionDef sig fbody =>
        if isPropertyDecorated sig.decorators then
          some { extract_function_info sig fbody with
                 visibility := some (if pyStartsWith sig.name "_" then "private" else "public") }
        else none
      | _ => none
    class_variables := body.flatMap fun item =>
      match item with
      | .annAssign (.name tid) ann _ ln => [({ name := tid, type := get_type_annot (some ann),
                                               line_number := ln } : ClassVariable)]
      | .assign targets _ ln =>
          targets.filterMap fun t =>
            match t with
            | .name tid => some ({ name := tid, type := none, line_number := ln } : ClassVariable)
            | _ => none
      | _ => []
    decorators := decorators.map unparse
    line_number := lineno }

/-- True exactly for FunctionDef / AsyncFunctionDef statements. -/
def isFuncStmt : PyStmt → Bool
  | .functionDef _ _ => true
  | _ => false

/-- The FunctionDef statement carried by a walked node, if any. -/
def funcStmt? : Node → Option PyStmt
  | .stmt (.functionDef sig body) => some (.functionDef sig body)
  | _ => none

/-- The is_method test of parse_module_ast: some ClassDef anywhere in
the walk has this statement in its direct body (Python's `node in
parent.body`, with structural equality standing in for node identity). -/
def isMethodNode (walked : List Node) (s : PyStmt) : Bool :=
  walked.any fun n =>
    match n with
    | .stmt (.classDef _ _ _ _ body) => body.any fun t => PyStmt.beq t s
    | _ => false

/-- The import entries a walked node contributes (parse_module_ast and
find_imports_in_file build identical dicts from Import / ImportFrom). -/
def importEntriesOf (lineEntries : Node) : List ImportInfo :=
  match lineEntries with
  | .stmt (.importStmt names ln) =>
      names.map fun al => { type := "import", module := al.1, asName := al.2, line_number := ln }
  | .stmt (.importFrom mod names lvl ln) =>
      names.map fun al => { type := "from_import", module := mod.getD "", name := some al.1,
                            asName := al.2, level := some lvl, line_number := ln }
  | _ => []

/-- Embedding of ast_tools.parse_module_ast: on a parse error the error
dict is returned unchanged (no symbol keys); otherwise one ast.walk
collects functions (definitions at any depth that are not a direct
child of some ClassDef body), classes (at any depth) and imports. -/
def parse_module_ast (fs : PyFS) (file_path : String) : PyResult ModuleInfo :=
  match get_ast_from_file fs file_path with
  | .err e => .err e
  | .tree m =>
    let walked := pyWalk m
    .ok
      { file_path := file_path
        functions := walked.filterMap fun n =>
          match n with
          | .stmt (.functionDef sig body) =>
            if isMethodNode walked (.functionDef sig body) then none
            else some (extract_function_info sig body)
          | _ => none
        classes := walked.filterMap fun n =>
          match n with
          | .stmt (.classDef nm bases decos ln body) =>
              some (extract_class_info nm bases decos ln body)
          | _ => none
        imports := walked.flatMap importEntriesOf
        docstring := extract_docstring m.body }

/-- The node test of get_function_details: a FunctionDef or
AsyncFunctionDef whose name equals the requested one. -/
def namedFuncNode (function_name : String) : Node → Bool
  | .stmt (.functionDef sig _) => sig.name == function_name
  | _ => false

/-- Embedding of ast_tools.get_function_details: the first walked
FunctionDef / AsyncFunctionDef bearing the requested name, at any
depth; an error dict when none matches. -/
def get_function_details (fs : PyFS) (file_path function_name : String) :
    PyResult FunctionInfo :=
  match get_ast_from_file fs file_path with
  | .err e => .err e
  | .tree m =>
    match (pyWalk m).find? (namedFuncNode function_name) with
    | some (.stmt (.functionDef sig body)) => .ok (extract_function_info sig body)
    | _ => .err ("Function \"" ++ function_name ++ "\" not found in " ++ file_path)

/-- Embedding of ast_tools.find_imports_in_file, reduced to the imports
list (the only part its callers in test_tools consume); an erroring
file contributes the empty list, exactly as the call sites guard with
the imports key being present. -/
def fileImports (fs : PyFS) (file_path : String) : List ImportInfo :=
  match get_ast_from_file fs file_path with
  | .err _ => []
  | .tree m => (pyWalk m).flatMap importEntriesOf

/-! ## test_tools: the framework classifier -/

/-- The well-known pytest fixture parameter names of the classifier. -/
def fixtureNames : List String :=
  ["request", "tmp_path", "tmpdir", "capfd", "capsys", "monkeypatch"]

/-- Base-class test of the class stage: some base unparses to text
containing TestCase or unittest. -/
def isUnittestBase (bases : List PyExpr) : Bool :=
  bases.any fun base => pyIn "TestCase" (unparse base) || pyIn "unittest" (unparse base)

/-- Import test of the class stage: some import module mentions pytest. -/
def hasPytestImport (file_imports : List ImportInfo) : Bool :=
  file_imports.any fun imp => pyIn "pytest" (pyLower imp.module)

/-- The class-membership stage of _detect_framework_context: scan every
class of the walk; at the first class whose direct body holds a def
matching the candidate name and line, return unittest when the class
has a unittest-like base, return pytest when the class is Test-prefixed
and the file imports pytest, and otherwise fall through to the next
class (the break of the source). -/
def classStageScan (fname : String) (flineno : Nat) (file_imports : List ImportInfo) :
    List Node → Option String
  | [] => none
  | .stmt (.classDef cname bases _ _ body) :: rest =>
    (match body.find? (fun mth =>
        match mth with
        | .functionDef sig _ => sig.name == fname && sig.lineno == flineno
        | _ => false) with
     | some _ =>
       if isUnittestBase bases then some "unittest"
       else if pyStartsWith cname "Test" && hasPytestImport file_imports then some "pytest"
       else classStageScan fname flineno file_imports rest
     | none => classStageScan fname flineno file_imports rest)
  | _ :: rest => classStageScan fname flineno file_imports rest

/-- The class stage applied to a freshly re-parsed file (the source
re-reads the file; a parse error skips the stage). -/
def classStage (fs : PyFS) (file_path fname : String) (flineno : Nat)
    (file_imports : List ImportInfo) : Option String :=
  match get_ast_from_file fs file_path with
  | .err _ => none
  | .tree m => classStageScan fname flineno file_imports (pyWalk m)

/-- The import-indicator counters (pytest count, unittest count) of
_detect_framework_context.  The final mock branch of the source can
never increment (a module equal to "mock" never contains "unittest")
but is transcribed faithfully. -/
def importIndicators (file_imports : List ImportInfo) : Nat × Nat :=
  file_imports.foldl
    (fun acc imp =>
      let module := pyLower imp.module
      let nm := pyLower (imp.name.getD "")
      if pyIn "pytest" module || pyIn "pytest" nm then (acc.1 + 1, acc.2)
      else if pyIn "unittest" module || pyIn "unittest" nm then (acc.1, acc.2 + 1)
      else if module == "mock" || nm == "mock" then
        (if pyIn "unittest" module then (acc.1, acc.2 + 1) else acc)
      else acc)
    (0, 0)

/-- The decorator stage: the first decorator with a pytest pattern
returns pytest immediately; unittest-pattern decorators only increment
the unittest counter. -/
def decoratorStage : List String → Nat → Option String × Nat
  | [], u => (none, u)
  | d :: rest, u =>
    let dl := pyLower d
    if pyIn "pytest." dl || pyIn "parametrize" dl || pyIn "fixture" dl || pyIn "mark." dl then
      (some "pytest", u)
    else if pyIn "unittest." dl || pyIn "mock.patch" dl then decoratorStage rest (u + 1)
    else decoratorStage rest u

/-- The parameter stage: scan parameters in declaration order; a
fixture-named parameter yields pytest, a parameter named self (when the
function's first parameter is named self) yields unittest — whichever
is hit first in the scan wins. -/
def paramStage (firstName : String) : List ParameterInfo → Option String
  | [] => none
  | p :: rest =>
    if fixtureNames.contains p.name then some "pytest"
    else if p.name == "self" && firstName == "self" then some "unittest"
    else paramStage firstName rest

/-- The name-pattern stage plus the final indicator comparison. -/
def nameStage (fname : String) (nparams pytestInd unittestInd : Nat) : String :=
  if (["setUp", "tearDown", "setUpClass", "tearDownClass"] : List String).contains fname then
    "unittest"
  else if pyStartsWith fname "test_" && nparams > 1 then "pytest"
  else if pytestInd > unittestInd then "pytest"
  else if unittestInd > pytestInd then "unittest"
  else "pytest"

/-- Embedding of test_tools._detect_framework_context: the staged rule
chain in source order (class membership, import counters, decorators,
parameters, name patterns, counter comparison, pytest default). -/
def detect_framework_context (fs : PyFS) (file_path : String) (sig : FuncSig)
    (func_info : FunctionInfo) (file_imports : List ImportInfo) : String :=
  match classStage fs file_path sig.name sig.lineno file_imports with
  | some r => r
  | none =>
    let inds := importIndicators file_imports
    match decoratorStage func_info.decorators 0 with
    | (some r, _) => r
    | (none, du) =>
      let firstName := (func_info.parameters.head?.map ParameterInfo.name).getD ""
      match paramStage firstName func_info.parameters with
      | some r => r
      | none => nameStage sig.name func_info.parameters.length inds.1 (inds.2 + du)

/-! ## test_tools: analyze_test_files (the aggregate fields the claims
touch: markers, test functions, imports) -/

/-- One marker record of analyze_test_files. -/
structure MarkerInfo where
  name : String
  file_path : String
  line_number : Nat
deriving DecidableEq, Repr

/-- The marker branch of the walk loop: a Call whose callee is an
attribute access is recorded exactly when that attribute is named mark;
the recorded name is the id of the callee base when it is a plain
name, else "unknown" (the getattr default). -/
def markerOf (file_path : String) : Node → Option MarkerInfo
  | .expr (.call (.attribute v attr) _ ln) =>
    if attr == "mark" then
      some { name := match v with | .name id => id | _ => "unknown"
             file_path := file_path, line_number := ln }
    else none
  | _ => none

/-- Markers one test file contributes (a file that fails to parse is
skipped by the continue of the source and contributes nothing). -/
def markersIn (fs : PyFS) (file_path : String) : List MarkerInfo :=
  match get_ast_from_file fs file_path with
  | .err _ => []
  | .tree m => (pyWalk m).filterMap (markerOf file_path)

/-- One aggregated test-function record of analyze_test_files. -/
structure TestFunctionEntry where
  name : String
  file_path : String
  line_number : Nat
  parameters : List ParameterInfo
  docstring : Option String
  decorators : List String
  framework : String
deriving DecidableEq, Repr

/-- The test-function test of analyze_test_files: name starts with
test_, or some decorator text contains test (case-sensitive). -/
def isTestFunc (sig : FuncSig) (func_info : FunctionInfo) : Bool :=
  pyStartsWith sig.name "test_" || func_info.decorators.any fun d => pyIn "test" d

/-- Test functions one test file contributes, with their classified
framework. -/
def testFunctionsIn (fs : PyFS) (file_path : String) : List TestFunctionEntry :=
  match get_ast_from_file fs file_path with
  | .err _ => []
  | .tree m =>
    (pyWalk m).filterMap fun n =>
      match n with
      | .stmt (.functionDef sig body) =>
        let func_info := extract_function_info sig body
        if isTestFunc sig func_info then
          some { name := sig.name, file_path := file_path, line_number := sig.lineno
                 parameters := func_info.parameters, docstring := func_info.docstring
                 decorators := func_info.decorators
                 framework := detect_framework_context fs file_path sig func_info
                                (fileImports fs file_path) }
        else none
      | _ => none

/-- The aggregated markers list of analyze_test_files over the
discovered (path-sorted) test files. -/
def analyzeMarkers (fs : PyFS) (testFiles : List String) : List MarkerInfo :=
  testFiles.flatMap (markersIn fs)

/-- The aggregated test_functions list of analyze_test_files. -/
def analyzeTestFunctions (fs : PyFS) (testFiles : List String) : List TestFunctionEntry :=
  testFiles.flatMap (testFunctionsIn fs)

/-- The aggregated imports list of analyze_test_files. -/
def analyzeImports (fs : PyFS) (testFiles : List String) : List ImportInfo :=
  testFiles.flatMap (fileImports fs)

/-! ## test_tools: get_test_patterns (the fields the claims touch) -/

/-- Set insertion modelled on a duplicate-free list. -/
def insertIfAbsent (l : List String) (s : String) : List String :=
  if l.contains s then l else l ++ [s]

/-- The testing_frameworks set of get_test_patterns, built from the
modules of the aggregated imports. -/
def testingFrameworks (imports : List ImportInfo) : List String :=
  imports.foldl
    (fun acc imp =>
      let module := imp.module
      if (["pytest", "unittest", "nose", "nose2"] : List String).contains module then
        insertIfAbsent acc module
      else if pyStartsWith module "pytest" then insertIfAbsent acc "pytest"
      else if pyStartsWith module "unittest" then insertIfAbsent acc "unittest"
      else acc)
    []

/-- The framework_usage tally of get_test_patterns: how many classified
test functions carry each label. -/
def frameworkUsage (tfs : List TestFunctionEntry) : Nat × Nat :=
  (tfs.countP (fun t => t.framework == "pytest"),
   tfs.countP (fun t => t.framework == "unittest"))

/-! ## test_tools: find_untested_code -/

/-- One untested-file entry. -/
structure UntestedFileEntry where
  file_path : String
  functions : Nat
  classes : Nat
deriving DecidableEq, Repr

/-- One untested-function entry. -/
structure UntestedFunctionEntry where
  name : String
  file_path : String
  line_number : Nat
  docstring : Option String
  parameters : List ParameterInfo
deriving DecidableEq, Repr

/-- One untested-class entry. -/
structure UntestedClassEntry where
  name : String
  file_path : String
  line_number : Nat
  docstring : Option String
  methods : Nat
  public_methods : Nat
deriving DecidableEq, Repr

/-- The result dict of find_untested_code (summary counts flattened). -/
structure UntestedReport where
  untested_functions : List UntestedFunctionEntry
  untested_classes : List UntestedClassEntry
  untested_files : List UntestedFileEntry
  total_source_files : Nat
  total_test_files : Nat
deriving DecidableEq, Repr

/-- The source-file filter of find_untested_code: keep a candidate
(an existing, non-ignored .py file path relative to the project root)
unless its path contains "test" or starts with "tests/". -/
def sourceFileFilter (candidatePaths : List String) : List String :=
  candidatePaths.filter fun rel_path =>
    !(pyIn "test" rel_path || pyStartsWith rel_path "tests/")

/-- The tested-reference set: module.name for from-imports, bare module
for plain imports, over every import of every test file. -/
def testedReferences (fs : PyFS) (testFiles : List String) : List String :=
  (analyzeImports fs testFiles).foldl
    (fun acc imp =>
      if imp.type == "from_import" then
        insertIfAbsent acc (imp.module ++ "." ++ (imp.name.getD ""))
      else if imp.type == "import" then insertIfAbsent acc imp.module
      else acc)
    []

/-- The module path of a source file: slashes to dots, then the text
.py deleted (str.replace deletes every occurrence, not only a
suffix). -/
def moduleNameOf (source_file : String) : String :=
  pyReplace (pyReplace source_file "/" ".") ".py" ""

/-- Embedding of test_tools.find_untested_code over a candidate source
listing and a test-file listing (the directory enumeration and the
directory-missing error branches live outside the claims; candidate
paths stand for the existing non-ignored .py files under the source
root).  A source file that fails to parse is skipped entirely.  A file
lands in untested_files when no tested reference contains its module
name; public top-level functions and classes land in their lists when
their fully qualified name is not a tested reference. -/
def find_untested_code (fs : PyFS) (candidatePaths testFiles : List String) : UntestedReport :=
  let source_files := sourceFileFilter candidatePaths
  let tested_references := testedReferences fs testFiles
  { untested_files := source_files.filterMap fun source_file =>
      match parse_module_ast fs source_file with
      | .err _ => none
      | .ok module_info =>
        let module_name := moduleNameOf source_file
        if tested_references.any (fun ref => pyIn module_name ref) then none
        else some { file_path := source_file, functions := module_info.functions.length
                    classes := module_info.classes.length }
    untested_functions := source_files.flatMap fun source_file =>
      match parse_module_ast fs source_file with
      | .err _ => []
      | .ok module_info =>
        let module_name := moduleNameOf source_file
        module_info.functions.filterMap fun func =>
          if !tested_references.contains (module_name ++ "." ++ func.name) &&
             !pyStartsWith func.name "_" then
            some { name := func.name, file_path := source_file, line_number := func.line_number
                   docstring := func.docstring, parameters := func.parameters }
          else none
    untested_classes := source_files.flatMap fun source_file =>
      match parse_module_ast fs source_file with
      | .err _ => []
      | .ok module_info =>
        let module_name := moduleNameOf source_file
        module_info.classes.filterMap fun cls =>
          if !tested_references.contains (module_name ++ "." ++ cls.name) &&
             !pyStartsWith cls.name "_" then
            some { name := cls.name, file_path := source_file, line_number := cls.line_number
                   docstring := cls.docstring, methods := cls.methods.length
                   public_methods := (cls.methods.filter fun m => !pyStartsWith m.name "_").length }
          else none
    total_source_files := source_files.length
    total_test_files := testFiles.length }

/-! ## test_tools: suggest_test_cases -/

/-- One suggestion record (the three unittest-only keys of the class
suggestion are optional, mirroring their conditional insertion). -/
structure TestCaseSuggestion where
  test_name : String
  description : String
  test_type : String
  priority : String
  framework : String
  suggested_assertions : List String
  test_class_name : Option String := none
  inherits_from : Option String := none
  setup_methods : Option (List String) := none
deriving DecidableEq, Repr

/-- Embedding of _get_suggested_assertions (the func_info argument is
unused by the source too). -/
def suggestedAssertions (framework : String) : List String :=
  if framework == "pytest" then
    ["assert", "assert ==", "assert !=", "assert is", "assert is not"]
  else
    ["assertEqual", "assertNotEqual", "assertTrue", "assertFalse", "assertIs", "assertIsNot"]

/-- The per-parameter suggestions of generate_function_tests: positional
parameters get one None-value negative test plus a type-keyed edge-case
battery (an absent type yields none; an empty type string fails every
substring test, matching Python's falsy check). -/
def paramSuggestions (fname framework : String) (p : ParameterInfo) : List TestCaseSuggestion :=
  if p.kind == "positional" then
    { test_name := "test_" ++ fname ++ "_with_none_" ++ p.name
      description := "Test " ++ fname ++ " with None value for " ++ p.name
      test_type := "negative", priority := "medium", framework := framework
      suggested_assertions :=
        [if framework == "pytest" then "raises exception" else "assertRaises"] } ::
    (match p.type with
     | none => []
     | some ty =>
       if pyIn "str" ty then
         [{ test_name := "test_" ++ fname ++ "_with_empty_string_" ++ p.name
            description := "Test " ++ fname ++ " with empty string for " ++ p.name
            test_type := "edge_case", priority := "medium", framework := framework
            suggested_assertions := suggestedAssertions framework }]
       else if pyIn "int" ty then
         [{ test_name := "test_" ++ fname ++ "_with_zero_" ++ p.name
            description := "Test " ++ fname ++ " with zero value for " ++ p.name
            test_type := "edge_case", priority := "medium", framework := framework
            suggested_assertions := suggestedAssertions framework },
          { test_name := "test_" ++ fname ++ "_with_negative_" ++ p.name
            description := "Test " ++ fname ++ " with negative value for " ++ p.name
            test_type := "edge_case", priority := "medium", framework := framework
            suggested_assertions := suggestedAssertions framework }]
       else if pyIn "list" ty then
         [{ test_name := "test_" ++ fname ++ "_with_empty_list_" ++ p.name
            description := "Test " ++ fname ++ " with empty list for " ++ p.name
            test_type := "edge_case", priority := "medium", framework := framework
            suggested_assertions := suggestedAssertions framework }]
       else if pyIn "dict" ty then
         [{ test_name := "test_" ++ fname ++ "_with_empty_dict_" ++ p.name
            description := "Test " ++ fname ++ " with empty dict for " ++ p.name
            test_type := "edge_case", priority := "medium", framework := framework
            suggested_assertions := suggestedAssertions framework }]
       else [])
  else []

/-- Embedding of generate_function_tests: the basic positive case, the
per-parameter cases, the return-type check (skipped for an absent or
empty — falsy — return type), and the docstring-driven exception and
async cases (both inside the docstring truthiness guard, so an async
function without a docstring gets no async suggestion). -/
def generate_function_tests (func_info : FunctionInfo) (framework : String) :
    List TestCaseSuggestion :=
  ({ test_name := "test_" ++ func_info.name ++ "_basic"
     description := "Test basic functionality of " ++ func_info.name
     test_type := "positive", priority := "high", framework := framework
     suggested_assertions := suggestedAssertions framework } ::
   func_info.parameters.flatMap (paramSuggestions func_info.name framework)) ++
  (match func_info.return_type with
   | none => []
   | some rt =>
     if rt.isEmpty then []
     else
       [{ test_name := "test_" ++ func_info.name ++ "_return_type"
          description := "Test that " ++ func_info.name ++ " returns correct type: " ++ rt
          test_type := "type_check", priority := "low", framework := framework
          suggested_assertions :=
            [if framework == "pytest" then "assert isinstance" else "assertIsInstance"] }]) ++
  (match func_info.docstring with
   | none => []
   | some d =>
     if d.isEmpty then []
     else
       (if pyIn "raise" (pyLower d) || pyIn "exception" (pyLower d) then
          [{ test_name := "test_" ++ func_info.name ++ "_raises_exception"
             description := "Test that " ++ func_info.name ++ " raises appropriate exceptions"
             test_type := "exception", priority := "high", framework := framework
             suggested_assertions :=
               [if framework == "pytest" then "pytest.raises" else "assertRaises"] }]
        else []) ++
       (if pyIn "async" (pyLower d) || func_info.type == "async_function" then
          [{ test_name := "test_" ++ func_info.name ++ "_async"
             description := "Test async behavior of " ++ func_info.name
             test_type := "async", priority := "high", framework := framework
             suggested_assertions :=
               [if framework == "pytest" then "await" else "asyncio.run"] }]
        else []))

/-- The class-instantiation suggestion, with the unittest-only keys
added conditionally. -/
def classSuggestion (cname framework : String) : TestCaseSuggestion :=
  let base : TestCaseSuggestion :=
    { test_name := "test_" ++ cname ++ "_instantiation"
      description := "Test that " ++ cname ++ " can be instantiated"
      test_type := "instantiation", priority := "high", framework := framework
      suggested_assertions := suggestedAssertions framework }
  if framework == "unittest" then
    { base with test_class_name := some ("Test" ++ cname)
                inherits_from := some "unittest.TestCase"
                setup_methods := some ["setUp", "tearDown"] }
  else base

/-- The per-class method suggestions: public methods plus dunder init. -/
def classMethodSuggestions (cls : ClassInfo) (framework : String) : List TestCaseSuggestion :=
  cls.methods.flatMap fun method =>
    if !pyStartsWith method.name "_" || method.name == "__init__" then
      generate_function_tests method framework
    else []

/-- The framework-resolution step of suggest_test_cases: an explicit
argument wins; otherwise get_test_patterns is queried for the
testing_frameworks set over the whole project test files and pytest
is preferred whenever present, then unittest, then the pytest
default. -/
def resolveFramework (fs : PyFS) (testFiles : List String) : Option String → String
  | some f => f
  | none =>
    let frameworks := testingFrameworks (analyzeImports fs testFiles)
    if frameworks.contains "pytest" then "pytest"
    else if frameworks.contains "unittest" then "unittest"
    else "pytest"

/-- The success payload of suggest_test_cases. -/
structure Suggestions where
  file_path : String
  framework : String
  recommended_framework : String
  test_suggestions : List TestCaseSuggestion
deriving DecidableEq, Repr

/-- Embedding of test_tools.suggest_test_cases (testFiles: the
project-wide discovered test files, consumed by the framework-resolution
query). -/
def suggest_test_cases (fs : PyFS) (testFiles : List String) (file_path : String)
    (function_name class_name framework : Option String) : PyResult Suggestions :=
  match parse_module_ast fs file_path with
  | .err e => .err e
  | .ok module_info =>
    let fw := resolveFramework fs testFiles framework
    match function_name with
    | some fname =>
      (match module_info.functions.find? (fun f => f.name == fname) with
       | some func =>
         .ok { file_path := file_path, framework := fw, recommended_framework := fw
               test_suggestions := generate_function_tests func fw }
       | none => .err ("Function \"" ++ fname ++ "\" not found in " ++ file_path))
    | none =>
      match class_name with
      | some cname =>
        (match module_info.classes.find? (fun c => c.name == cname) with
         | some cls =>
           .ok { file_path := file_path, framework := fw, recommended_framework := fw
                 test_suggestions := classSuggestion cls.name fw :: classMethodSuggestions cls fw }
         | none => .err ("Class \"" ++ cname ++ "\" not found in " ++ file_path))
      | none =>
        .ok { file_path := file_path, framework := fw, recommended_framework := fw
              test_suggestions :=
                module_info.functions.flatMap
                  (fun func =>
                    if !pyStartsWith func.name "_" then generate_function_tests func fw else []) ++
                module_info.classes.flatMap
                  (fun cls =>
                    if !pyStartsWith cls.name "_" then
                      classSuggestion cls.name fw :: classMethodSuggestions cls fw
                    else []) }

/-- Modelled from the spec (the C5 comparison point): the claimed
framework choice is the majority label of the project-wide per-function
framework tally, with pytest on a tie or an empty corpus. -/
def claimedMajorityFramework (fs : PyFS) (testFiles : List String) : String :=
  let usage := frameworkUsage (analyzeTestFunctions fs testFiles)
  if usage.1 > usage.2 then "pytest"
  else if usage.2 > usage.1 then "unittest"
  else "pytest"

/-! ## Support definitions for the claim statements -/

/-- All function/method definitions of a parsed file, at any nesting
depth: the FunctionDef statements among all descendant nodes of the
module. -/
def allDefs (m : PyModule) : List PyStmt :=
  (nodeNodes (Node.module m.body)).filterMap funcStmt?

/-- The name of a definition statement. -/
def funcDefName? : PyStmt → Option String
  | .functionDef sig _ => some sig.name
  | _ => none

/-- Boolean pairwise distinctness under an equality test. -/
def distinctList (f : α → α → Bool) : List α → Bool
  | [] => true
  | a :: rest => !(rest.any (f a)) && distinctList f rest

/-- The function statements a class node directly contains (the items
the extract_class_info loop sorts into methods and properties); empty
for every non-class node. -/
def bodyFuncsOf : Node → List PyStmt
  | .stmt (.classDef _ _ _ _ body) => body.filter isFuncStmt
  | _ => []

/-- A call expression of the shape ns.mark.attr(...): the callee is an
attribute access whose base is itself an attribute access named mark. -/
def isNsMarkAttrCall : Node → Bool
  | .expr (.call (.attribute (.attribute _ "mark") _) _ _) => true
  | _ => false

/-- True on every Parser Adapter failure state (everything except a
successful parse). -/
def isFailureState : FileState → Bool
  | .parsed _ => false
  | _ => true

/-- The error text get_ast_from_file formats for each failure state. -/
def errorMessageFor (file_path : String) : FileState → String
  | .missing => "File not found: " ++ file_path
  | .notPython => "Not a Python file: " ++ file_path
  | .unreadable msg => "Error parsing " ++ file_path ++ ": " ++ msg
  | .syntaxError msg => "Syntax error in " ++ file_path ++ ": " ++ msg
  | .parsed _ => ""

/-! ## Concrete programs used as counterexamples and witnesses -/

/-- An ast.arguments with no parameters at all. -/
def emptyArgs : PyArguments := ⟨[], none, [], none, []⟩

/-- An ast.arguments with the single parameter self. -/
def selfArgs : PyArguments := ⟨[⟨"self", none⟩], none, [], none, []⟩

/-- A pass statement at a line. -/
def passAt (ln : Nat) : PyStmt := .otherStmt [] [] ln

/-- A property-decorated method p(self) at lines 3-4. -/
def propFunc : PyStmt :=
  .functionDef ⟨"p", false, selfArgs, [.name "property"], none, 3⟩ [passAt 4]

/-- A plain method m(self) at lines 5-6. -/
def plainMethod : PyStmt :=
  .functionDef ⟨"m", false, selfArgs, [], none, 5⟩ [passAt 6]

/-- The C1 counterexample file: one class whose only definition is a
property. -/
def mC1 : PyModule := ⟨[.classDef "C" [] [] 2 [propFunc]]⟩

/-- Filesystem with exactly the C1 counterexample file. -/
def fsC1 : PyFS := fun p => if p == "pkg/props.py" then .parsed mC1 else .missing

/-- The C1 witness file: a top-level function holding a nested
function, plus a class with one plain method and one property. -/
def mC1w : PyModule :=
  ⟨[.functionDef ⟨"top", false, emptyArgs, [], none, 1⟩
      [.functionDef ⟨"inner", false, emptyArgs, [], none, 2⟩ [passAt 2]],
    .classDef "C" [] [] 4 [propFunc, plainMethod]]⟩

/-- Filesystem with exactly the C1 witness file. -/
def fsC1w : PyFS := fun p => if p == "pkg/mix.py" then .parsed mC1w else .missing

/-- The C2 counterexample file: it imports pytest and evaluates the
marker-shaped call pytest.mark.slow(). -/
def mC2 : PyModule :=
  ⟨[.importStmt [("pytest", none)] 1,
    .exprStmt (.call (.attribute (.attribute (.name "pytest") "mark") "slow") [] 3) 3]⟩

/-- Filesystem with exactly the C2 counterexample file. -/
def fsC2 : PyFS := fun p => if p == "tests/test_m.py" then .parsed mC2 else .missing

/-- The C2 witness file: a call pytest.mark(...) whose callee attribute
is literally mark. -/
def mC2w : PyModule := ⟨[.exprStmt (.call (.attribute (.name "pytest") "mark") [] 2) 2]⟩

/-- Filesystem with exactly the C2 witness file. -/
def fsC2w : PyFS := fun p => if p == "tests/test_w.py" then .parsed mC2w else .missing

/-- The C3 candidate: a top-level test function whose first parameter
is self and whose second parameter is the fixture tmp_path. -/
def sigC3 : FuncSig :=
  ⟨"test_fx", false, ⟨[⟨"self", none⟩, ⟨"tmp_path", none⟩], none, [], none, []⟩, [], none, 1⟩

/-- The C3 counterexample file containing only that candidate. -/
def mC3 : PyModule := ⟨[.functionDef sigC3 [passAt 2]]⟩

/-- Filesystem with exactly the C3 counterexample file. -/
def fsC3 : PyFS := fun p => if p == "tests/test_c3.py" then .parsed mC3 else .missing

/-- The C3 witness candidate: first parameter is the fixture tmp_path
itself. -/
def sigC3w : FuncSig :=
  ⟨"test_ok", false, ⟨[⟨"tmp_path", none⟩], none, [], none, []⟩, [], none, 1⟩

/-- The C3 witness file. -/
def mC3w : PyModule := ⟨[.functionDef sigC3w [passAt 2]]⟩

/-- Filesystem with exactly the C3 witness file. -/
def fsC3w : PyFS := fun p => if p == "tests/test_c3w.py" then .parsed mC3w else .missing

/-- A file with no statements at all: zero functions, zero classes. -/
def mEmpty : PyModule := ⟨[]⟩

/-- Filesystem with exactly one empty source file. -/
def fsC4 : PyFS := fun p => if p == "pkg/empty.py" then .parsed mEmpty else .missing

/-- The C5 corpus test file: imports pytest and unittest, and holds a
unittest.TestCase class with two test methods (so the per-function
tally is unittest 2, pytest 0, while the import set mentions both
frameworks). -/
def mC5 : PyModule :=
  ⟨[.importStmt [("pytest", none)] 1,
    .importStmt [("unittest", none)] 2,
    .classDef "MyTests" [.attribute (.name "unittest") "TestCase"] [] 3
      [.functionDef ⟨"test_a", false, selfArgs, [], none, 4⟩ [passAt 5],
       .functionDef ⟨"test_b", false, selfArgs, [], none, 6⟩ [passAt 7]]]⟩

/-- Filesystem with the C5 corpus file and an empty target module. -/
def fsC5 : PyFS := fun p =>
  if p == "tests/test_units.py" then .parsed mC5
  else if p == "mod.py" then .parsed mEmpty
  else .missing

/-- The C8 witness file: a function whose docstring mentions raising. -/
def mC8 : PyModule :=
  ⟨[.functionDef ⟨"f", false, emptyArgs, [], none, 1⟩
      [.exprStmt (.constStr "Raises ValueError on bad input.") 2, passAt 3]]⟩

/-- Filesystem with exactly the C8 witness file. -/
def fsC8 : PyFS := fun p => if p == "pkg/r.py" then .parsed mC8 else .missing

/-- The C10 witness file: the function target exists only nested inside
another function. -/
def mC10 : PyModule :=
  ⟨[.functionDef ⟨"outer", false, emptyArgs, [], none, 1⟩
      [.functionDef ⟨"target", false, emptyArgs, [], none, 2⟩ [passAt 3]]]⟩

/-- Filesystem with exactly the C10 witness file. -/
def fsC10 : PyFS := fun p => if p == "pkg/nested.py" then .parsed mC10 else .missing

/-- The C9 witness candidate listing: a real source file, a file whose
name merely contains the text test, and a file under a directory whose
name contains it. -/
def fsC9 : PyFS := fun p =>
  if p == "pkg/real.py" then .parsed mEmpty
  else if p == "contest.py" then .parsed mEmpty
  else if p == "latest/a.py" then .parsed mEmpty
  else .missing

/-- The C7 witness signature: parameter list (a, b=1, *args, **kwargs). -/
def sigC7 : FuncSig :=
  ⟨"f", false,
   ⟨[⟨"a", none⟩, ⟨"b", none⟩], some ⟨"args", none⟩, [], some ⟨"kwargs", none⟩, [.constInt 1]⟩,
   [], none, 1⟩

/-! ## Theorems.  First: structural equality is propositional equality -/

mutual

/-- PyExpr.beq decides equality. -/
theorem pyExprBeq_iff : ∀ a b, PyExpr.beq a b = true ↔ a = b
  | .name a, b => by cases b <;> simp [PyExpr.beq]
  | .constStr a, b => by cases b <;> simp [PyExpr.beq]
  | .constInt a, b => by cases b <;> simp [PyExpr.beq]
  | .attribute v1 a1, .name _ => by simp [PyExpr.beq]
  | .attribute v1 a1, .attribute v2 a2 => by
      simp [PyExpr.beq, pyExprBeq_iff v1 v2]
  | .attribute v1 a1, .call _ _ _ => by simp [PyExpr.beq]
  | .attribute v1 a1, .constStr _ => by simp [PyExpr.beq]
  | .attribute v1 a1, .constInt _ => by simp [PyExpr.beq]
  | .attribute v1 a1, .otherExpr _ => by simp [PyExpr.beq]
  | .call f1 as1 l1, .name _ => by simp [PyExpr.beq]
  | .call f1 as1 l1, .attribute _ _ => by simp [PyExpr.beq]
  | .call f1 as1 l1, .call f2 as2 l2 => by
      simp [PyExpr.beq, pyExprBeq_iff f1 f2, pyExprListBeq_iff as1 as2, and_assoc]
  | .call f1 as1 l1, .constStr _ => by simp [PyExpr.beq]
  | .call f1 as1 l1, .constInt _ => by simp [PyExpr.beq]
  | .call f1 as1 l1, .otherExpr _ => by simp [PyExpr.beq]
  | .otherExpr c1, .name _ => by simp [PyExpr.beq]
  | .otherExpr c1, .attribute _ _ => by simp [PyExpr.beq]
  | .otherExpr c1, .call _ _ _ => by simp [PyExpr.beq]
  | .otherExpr c1, .constStr _ => by simp [PyExpr.beq]
  | .otherExpr c1, .constInt _ => by simp [PyExpr.beq]
  | .otherExpr c1, .otherExpr c2 => by simp [PyExpr.beq, pyExprListBeq_iff c1 c2]

/-- PyExpr.beqList decides equality of expression lists. -/
theorem pyExprListBeq_iff : ∀ a b, PyExpr.beqList a b = true ↔ a = b
  | [], [] => by simp [PyExpr.beqList]
  | [], _ :: _ => by simp [PyExpr.beqList]
  | _ :: _, [] => by simp [PyExpr.beqList]
  | a :: as, b :: bs => by
      simp [PyExpr.beqList, pyExprBeq_iff a b, pyExprListBeq_iff as bs]

end

/-- optExprBeq decides equality. -/
theorem optExprBeq_iff (a b : Option PyExpr) : optExprBeq a b = true ↔ a = b := by
  cases a <;> cases b <;> simp [optExprBeq, pyExprBeq_iff]

/-- PyArg.beq decides equality. -/
theorem pyArgBeq_iff (a b : PyArg) : PyArg.beq a b = true ↔ a = b := by
  cases a; cases b
  simp [PyArg.beq, optExprBeq_iff, PyArg.mk.injEq]

/-- optArgBeq decides equality. -/
theorem optArgBeq_iff (a b : Option PyArg) : optArgBeq a b = true ↔ a = b := by
  cases a <;> cases b <;> simp [optArgBeq, pyArgBeq_iff]

/-- argListBeq decides equality. -/
theorem argListBeq_iff : ∀ a b, argListBeq a b = true ↔ a = b
  | [], [] => by simp [argListBeq]
  | [], _ :: _ => by simp [argListBeq]
  | _ :: _, [] => by simp [argListBeq]
  | a :: as, b :: bs => by
      simp [argListBeq, pyArgBeq_iff a b, argListBeq_iff as bs]

/-- PyArguments.beq decides equality. -/
theorem pyArgsBeq_iff (a b : PyArguments) : PyArguments.beq a b = true ↔ a = b := by
  cases a; cases b
  simp [PyArguments.beq, argListBeq_iff, optArgBeq_iff, pyExprListBeq_iff,
    PyArguments.mk.injEq, and_assoc]

/-- FuncSig.beq decides equality. -/
theorem funcSigBeq_iff (a b : FuncSig) : FuncSig.beq a b = true ↔ a = b := by
  cases a; cases b
  simp [FuncSig.beq, pyArgsBeq_iff, pyExprListBeq_iff, optExprBeq_iff,
    FuncSig.mk.injEq, and_assoc]

mutual

/-- PyStmt.beq decides equality. -/
theorem pyStmtBeq_iff : ∀ a b, PyStmt.beq a b = true ↔ a = b
  | .exprStmt v1 l1, b => by
      cases b <;> simp [PyStmt.beq, pyExprBeq_iff]
  | .importStmt n1 l1, b => by cases b <;> simp [PyStmt.beq]
  | .importFrom m1 n1 lv1 l1, b => by cases b <;> simp [PyStmt.beq, and_assoc]
  | .assign t1 v1 l1, b => by
      cases b <;> simp [PyStmt.beq, pyExprBeq_iff, pyExprListBeq_iff, and_assoc]
  | .annAssign t1 a1 v1 l1, b => by
      cases b <;> simp [PyStmt.beq, pyExprBeq_iff, optExprBeq_iff, and_assoc]
  | .functionDef s1 b1, .functionDef s2 b2 => by
      simp [PyStmt.beq, funcSigBeq_iff, pyStmtListBeq_iff b1 b2]
  | .functionDef s1 b1, .classDef _ _ _ _ _ => by simp [PyStmt.beq]
  | .functionDef s1 b1, .exprStmt _ _ => by simp [PyStmt.beq]
  | .functionDef s1 b1, .importStmt _ _ => by simp [PyStmt.beq]
  | .functionDef s1 b1, .importFrom _ _ _ _ => by simp [PyStmt.beq]
  | .functionDef s1 b1, .assign _ _ _ => by simp [PyStmt.beq]
  | .functionDef s1 b1, .annAssign _ _ _ _ => by simp [PyStmt.beq]
  | .functionDef s1 b1, .otherStmt _ _ _ => by simp [PyStmt.beq]
  | .classDef n1 ba1 d1 l1 b1, .functionDef _ _ => by simp [PyStmt.beq]
  | .classDef n1 ba1 d1 l1 b1, .classDef n2 ba2 d2 l2 b2 => by
      simp [PyStmt.beq, pyExprListBeq_iff, pyStmtListBeq_iff b1 b2, and_assoc]
  | .classDef n1 ba1 d1 l1 b1, .exprStmt _ _ => by simp [PyStmt.beq]
  | .classDef n1 ba1 d1 l1 b1, .importStmt _ _ => by simp [PyStmt.beq]
  | .classDef n1 ba1 d1 l1 b1, .importFrom _ _ _ _ => by simp [PyStmt.beq]
  | .classDef n1 ba1 d1 l1 b1, .assign _ _ _ => by simp [PyStmt.beq]
  | .classDef n1 ba1 d1 l1 b1, .annAssign _ _ _ _ => by simp [PyStmt.beq]
  | .classDef n1 ba1 d1 l1 b1, .otherStmt _ _ _ => by simp [PyStmt.beq]
  | .otherStmt e1 b1 l1, .functionDef _ _ => by simp [PyStmt.beq]
  | .otherStmt e1 b1 l1, .classDef _ _ _ _ _ => by simp [PyStmt.beq]
  | .otherStmt e1 b1 l1, .exprStmt _ _ => by simp [PyStmt.beq]
  | .otherStmt e1 b1 l1, .importStmt _ _ => by simp [PyStmt.beq]
  | .otherStmt e1 b1 l1, .importFrom _ _ _ _ => by simp [PyStmt.beq]
  | .otherStmt e1 b1 l1, .assign _ _ _ => by simp [PyStmt.beq]
  | .otherStmt e1 b1 l1, .annAssign _ _ _ _ => by simp [PyStmt.beq]
  | .otherStmt e1 b1 l1, .otherStmt e2 b2 l2 => by
      simp [PyStmt.beq, pyExprListBeq_iff, pyStmtListBeq_iff b1 b2, and_assoc]

/-- PyStmt.beqList decides equality of statement lists. -/
theorem pyStmtListBeq_iff : ∀ a b, PyStmt.beqList a b = true ↔ a = b
  | [], [] => by simp [PyStmt.beqList]
  | [], _ :: _ => by simp [PyStmt.beqList]
  | _ :: _, [] => by simp [PyStmt.beqList]
  | a :: as, b :: bs => by
      simp [PyStmt.beqList, pyStmtBeq_iff a b, pyStmtListBeq_iff as bs]

end

/-- The Boolean distinctness test is Nodup. -/
theorem distinctList_iff_nodup (l : List PyStmt) :
    distinctList PyStmt.beq l = true ↔ l.Nodup := by
  induction l with
  | nil => simp [distinctList]
  | cons a rest ih =>
    simp only [distinctList, Bool.and_eq_true, Bool.not_eq_true', List.nodup_cons, ← ih]
    constructor
    · rintro ⟨h1, h2⟩
      refine ⟨fun hmem => ?_, h2⟩
      have : rest.any (PyStmt.beq a) = true :=
        List.any_eq_true.mpr ⟨a, hmem, (pyStmtBeq_iff a a).mpr rfl⟩
      simp [this] at h1
    · rintro ⟨h1, h2⟩
      refine ⟨?_, h2⟩
      by_contra hfalse
      have : rest.any (PyStmt.beq a) = true := by
        cases h : rest.any (PyStmt.beq a) with
        | true => rfl
        | false => simp [h] at hfalse
      obtain ⟨x, hx, hbeq⟩ := List.any_eq_true.mp this
      exact h1 (((pyStmtBeq_iff a x).mp hbeq) ▸ hx)

/-! ## Traversal lemmas -/

/-- nodesOfStmtList is flatMap of nodesOfStmt. -/
theorem nodesOfStmtList_eq (l : List PyStmt) : nodesOfStmtList l = l.flatMap nodesOfStmt := by
  induction l with
  | nil => simp [nodesOfStmtList]
  | cons s rest ih => simp [nodesOfStmtList, ih]

/-- nodesOfExprList is flatMap of nodesOfExpr. -/
theorem nodesOfExprList_eq (l : List PyExpr) : nodesOfExprList l = l.flatMap nodesOfExpr := by
  induction l with
  | nil => simp [nodesOfExprList]
  | cons e rest ih => simp [nodesOfExprList, ih]

/-- nodesOfOptExpr is flatMap over Option.toList. -/
theorem nodesOfOptExpr_eq (o : Option PyExpr) :
    nodesOfOptExpr o = o.toList.flatMap nodesOfExpr := by
  cases o <;> simp [nodesOfOptExpr]

/-- nodesOfArgList visits exactly the present annotations. -/
theorem nodesOfArgList_eq (l : List PyArg) :
    nodesOfArgList l = (l.filterMap PyArg.annot).flatMap nodesOfExpr := by
  induction l with
  | nil => simp [nodesOfArgList]
  | cons a rest ih =>
    obtain ⟨nm, ann⟩ := a
    cases ann <;> simp [nodesOfArgList, nodesOfOptExpr, ih, List.filterMap_cons, PyArg.annot]

/-- nodesOfOptArg visits exactly the annotation of a present arg. -/
theorem nodesOfOptArg_eq (o : Option PyArg) :
    nodesOfOptArg o = (o.bind PyArg.annot).toList.flatMap nodesOfExpr := by
  cases o with
  | none => simp [nodesOfOptArg]
  | some a =>
    obtain ⟨nm, ann⟩ := a
    cases ann <;> simp [nodesOfOptArg, nodesOfOptExpr, PyArg.annot, Option.bind]

/-- The one-step unfolding of the descendants function: a node followed
by the descendants of its children. -/
theorem nodeNodes_eq (n : Node) : nodeNodes n = n :: (children n).flatMap nodeNodes := by
  cases n with
  | module body =>
    simp [nodeNodes, children, nodesOfStmtList_eq, List.flatMap_map]
  | stmt s =>
    cases s with
    | functionDef sig body =>
      obtain ⟨nm, ia, args, decos, ret, ln⟩ := sig
      obtain ⟨aas, va, kwo, kwa, defs⟩ := args
      simp [nodeNodes, children, nodesOfStmt, argExprs, nodesOfArgList_eq, nodesOfOptArg_eq,
        nodesOfExprList_eq, nodesOfStmtList_eq, nodesOfOptExpr_eq, List.flatMap_map,
        List.flatMap_append]
    | classDef nm bases decos ln body =>
      simp [nodeNodes, children, nodesOfStmt, nodesOfExprList_eq, nodesOfStmtList_eq,
        List.flatMap_map, List.flatMap_append]
    | exprStmt v ln => simp [nodeNodes, children, nodesOfStmt]
    | importStmt ns ln => simp [nodeNodes, children, nodesOfStmt]
    | importFrom mo ns lv ln => simp [nodeNodes, children, nodesOfStmt]
    | assign ts v ln =>
      simp [nodeNodes, children, nodesOfStmt, nodesOfExprList_eq, List.flatMap_map,
        List.flatMap_append]
    | annAssign t ann v ln =>
      simp [nodeNodes, children, nodesOfStmt, nodesOfOptExpr_eq, List.flatMap_map,
        List.flatMap_append]
    | otherStmt es body ln =>
      simp [nodeNodes, children, nodesOfStmt, nodesOfExprList_eq, nodesOfStmtList_eq,
        List.flatMap_map, List.flatMap_append]
  | expr e =>
    cases e <;>
      simp [nodeNodes, children, nodesOfExpr, nodesOfExprList_eq, List.flatMap_map]

/-- Every node has at least itself among its descendants. -/
theorem nodeNodes_length_pos (n : Node) : 0 < (nodeNodes n).length := by
  rw [nodeNodes_eq]; simp

/-- The BFS loop yields a permutation of the descendants of the queue,
given enough fuel. -/
theorem walkFromF_perm :
    ∀ (fuel : Nat) (q : List Node),
      (q.map fun n => (nodeNodes n).length).sum ≤ fuel →
      List.Perm (walkFromF fuel q) (q.flatMap nodeNodes) := by
  intro fuel
  induction fuel with
  | zero =>
    intro q hq
    cases q with
    | nil => simp [walkFromF]
    | cons n rest =>
      exfalso
      have h1 := nodeNodes_length_pos n
      have hle : (nodeNodes n).length ≤
          (((n :: rest).map fun c => (nodeNodes c).length).sum) := by
        simp only [List.map_cons, List.sum_cons]
        exact Nat.le_add_right _ _
      omega
  | succ f ih =>
    intro q hq
    cases q with
    | nil => simp [walkFromF]
    | cons n rest =>
      rw [walkFromF]
      have hlen : (nodeNodes n).length =
          1 + (((children n).map fun c => (nodeNodes c).length).sum) := by
        rw [nodeNodes_eq]
        simp [List.length_flatMap, Function.comp_def]
        omega
      have hmeas : ((rest ++ children n).map fun c => (nodeNodes c).length).sum ≤ f := by
        simp only [List.map_append, List.sum_append]
        simp at hq
        omega
      have h2 := ih (rest ++ children n) hmeas
      have h3 : List.Perm (n :: walkFromF f (rest ++ children n))
          (n :: ((rest ++ children n).flatMap nodeNodes)) := h2.cons n
      refine h3.trans ?_
      have h4 : (rest ++ children n).flatMap nodeNodes =
          rest.flatMap nodeNodes ++ (children n).flatMap nodeNodes := by
        simp [List.flatMap_append]
      rw [h4]
      have h5 : List.Perm
          (n :: (rest.flatMap nodeNodes ++ (children n).flatMap nodeNodes))
          (n :: ((children n).flatMap nodeNodes ++ rest.flatMap nodeNodes)) :=
        (List.perm_append_comm).cons n
      refine h5.trans ?_
      have h6 : (n :: rest).flatMap nodeNodes =
          n :: ((children n).flatMap nodeNodes ++ rest.flatMap nodeNodes) := by
        rw [List.flatMap_cons, nodeNodes_eq n]
        simp
      rw [h6]

/-- The embedded ast.walk enumerates exactly the descendants of the
module (as a permutation: breadth-first versus depth-first order). -/
theorem pyWalk_perm (m : PyModule) :
    List.Perm (pyWalk m) (nodeNodes (Node.module m.body)) := by
  have h := walkFromF_perm (nodeNodes (Node.module m.body)).length
    [Node.module m.body] (by simp)
  simpa [pyWalk] using h

/-! ## C6: parse_module_ast error behaviour -/

/-- C6: for every failing input (missing file, non-Python file,
unreadable file, file with a syntax error), parse_module_ast returns
the error value get_ast_from_file formatted — by construction a dict
holding only the error string, never alongside the functions, classes
or imports keys — and, being a total function, never raises. -/
theorem C6_parse_module_ast_error_value (fs : PyFS) (file_path : String)
    (h : isFailureState (fs file_path) = true) :
    parse_module_ast fs file_path = .err (errorMessageFor file_path (fs file_path)) := by
  cases hst : fs file_path with
  | missing => simp [parse_module_ast, get_ast_from_file, hst, errorMessageFor]
  | notPython => simp [parse_module_ast, get_ast_from_file, hst, errorMessageFor]
  | unreadable msg => simp [parse_module_ast, get_ast_from_file, hst, errorMessageFor]
  | syntaxError msg => simp [parse_module_ast, get_ast_from_file, hst, errorMessageFor]
  | parsed m => rw [hst] at h; simp [isFailureState] at h

/-- C6 witness: a concrete missing file produces exactly the not-found
error value. -/
theorem C6_witness :
    isFailureState (fsC1 "nope.py") = true ∧
    parse_module_ast fsC1 "nope.py" = .err "File not found: nope.py" := by
  refine ⟨by rfl, ?_⟩
  have h := C6_parse_module_ast_error_value fsC1 "nope.py" (by rfl)
  simpa using h

/-! ## C7: parameter extraction for (a, b=1, *args, **kwargs) -/

/-- C7: extracting any function with parameter list
(a, b=1, *args, **kwargs) yields exactly four ParameterInfo entries
tagged positional, positional, vararg, kwarg in that order, with the
default "1" attached to b (right-aligned against the positional tail)
and no other parameter carrying a default. -/
theorem C7_default_attachment (nm : String) (isAsync : Bool) (decos : List PyExpr)
    (ret : Option PyExpr) (ln : Nat) (body : List PyStmt) :
    (extract_function_info
        ⟨nm, isAsync,
         ⟨[⟨"a", none⟩, ⟨"b", none⟩], some ⟨"args", none⟩, [], some ⟨"kwargs", none⟩,
          [.constInt 1]⟩,
         decos, ret, ln⟩ body).parameters =
      [⟨"a", none, "positional", none⟩,
       ⟨"b", none, "positional", some "1"⟩,
       ⟨"args", none, "vararg", none⟩,
       ⟨"kwargs", none, "kwarg", none⟩] := by
  rfl

/-! ## C4: find_untested_code and files without symbols -/

/-- C4 counterexample: a source file with zero functions and zero
classes, unreferenced by any test import, IS reported in
untested_files — refuting the claim that such a file is never listed. -/
theorem C4_counterexample :
    (∃ info, parse_module_ast fsC4 "pkg/empty.py" = .ok info ∧
        info.functions = [] ∧ info.classes = []) ∧
    (find_untested_code fsC4 ["pkg/empty.py"] []).untested_files =
      [{ file_path := "pkg/empty.py", functions := 0, classes := 0 }] := by
  exact ⟨⟨_, rfl, rfl, rfl⟩, rfl⟩

/-- C4 amended: a successfully parsed source file is listed in
untested_files exactly like any other file — whenever no tested
reference contains its module name — regardless of whether it declares
any functions or classes; declaring no symbols does not exempt it. -/
theorem C4_amended_symbolless_file_listed (fs : PyFS)
    (candidatePaths testFiles : List String) (p : String) (info : ModuleInfo)
    (hp : p ∈ sourceFileFilter candidatePaths)
    (hparse : parse_module_ast fs p = .ok info)
    (hnotests : ∀ ref ∈ testedReferences fs testFiles, pyIn (moduleNameOf p) ref = false) :
    ({ file_path := p, functions := info.functions.length,
       classes := info.classes.length } : UntestedFileEntry)
      ∈ (find_untested_code fs candidatePaths testFiles).untested_files := by
  unfold find_untested_code
  refine List.mem_filterMap.mpr ⟨p, hp, ?_⟩
  rw [hparse]
  have hany : ((testedReferences fs testFiles).any
      fun ref => pyIn (moduleNameOf p) ref) = false := by
    rw [List.any_eq_false]
    intro ref href
    simp [hnotests ref href]
  simp [hany]

/-- C4 witness: the amended statement applied to the concrete empty
file. -/
theorem C4_witness :
    ({ file_path := "pkg/empty.py", functions := 0, classes := 0 } : UntestedFileEntry)
      ∈ (find_untested_code fsC4 ["pkg/empty.py"] []).untested_files := by
  have h := C4_amended_symbolless_file_listed fsC4 ["pkg/empty.py"] [] "pkg/empty.py"
    { file_path := "pkg/empty.py", functions := [], classes := [], imports := [],
      docstring := none }
    (by decide) (by rfl) (by intro ref href; simp [testedReferences, analyzeImports] at href)
  simpa using h

/-! ## C9: the test-substring exclusion of find_untested_code -/

/-- C9: any candidate path containing the substring test anywhere is
dropped from the source-file set and consequently never appears — at
file, function, or class granularity — in the untested report. -/
theorem C9_test_paths_excluded (fs : PyFS) (candidatePaths testFiles : List String)
    (p : String) (hp : pyIn "test" p = true) :
    p ∉ sourceFileFilter candidatePaths ∧
    (∀ e ∈ (find_untested_code fs candidatePaths testFiles).untested_files,
      e.file_path ≠ p) ∧
    (∀ e ∈ (find_untested_code fs candidatePaths testFiles).untested_functions,
      e.file_path ≠ p) ∧
    (∀ e ∈ (find_untested_code fs candidatePaths testFiles).untested_classes,
      e.file_path ≠ p) := by
  have hnotmem : p ∉ sourceFileFilter candidatePaths := by
    intro hmem
    have hpred := List.of_mem_filter hmem
    simp [hp] at hpred
  refine ⟨hnotmem, ?_, ?_, ?_⟩
  · intro e he
    obtain ⟨sf, hsf, hfeq⟩ := List.mem_filterMap.mp he
    have hfp : e.file_path = sf := by
      rcases hpm : parse_module_ast fs sf with msg | info <;> rw [hpm] at hfeq
      · simp at hfeq
      · simp only [] at hfeq
        split at hfeq
        · simp at hfeq
        · cases hfeq; rfl
    intro hep
    rw [hfp] at hep
    exact hnotmem (hep ▸ hsf)
  · intro e he
    obtain ⟨sf, hsf, hin⟩ := List.mem_flatMap.mp he
    have hfp : e.file_path = sf := by
      rcases hpm : parse_module_ast fs sf with msg | info <;> rw [hpm] at hin
      · simp at hin
      · obtain ⟨func, _, hfeq⟩ := List.mem_filterMap.mp hin
        split at hfeq
        · cases hfeq; rfl
        · simp at hfeq
    intro hep
    rw [hfp] at hep
    exact hnotmem (hep ▸ hsf)
  · intro e he
    obtain ⟨sf, hsf, hin⟩ := List.mem_flatMap.mp he
    have hfp : e.file_path = sf := by
      rcases hpm : parse_module_ast fs sf with msg | info <;> rw [hpm] at hin
      · simp at hin
      · obtain ⟨cls, _, hfeq⟩ := List.mem_filterMap.mp hin
        split at hfeq
        · cases hfeq; rfl
        · simp at hfeq
    intro hep
    rw [hfp] at hep
    exact hnotmem (hep ▸ hsf)

/-- C9 witness: with candidates real.py, contest.py and latest/a.py,
the path contest.py (its name merely contains the text test) is
excluded everywhere. -/
theorem C9_witness :
    "contest.py" ∉ sourceFileFilter ["pkg/real.py", "contest.py", "latest/a.py"] ∧
    (∀ e ∈ (find_untested_code fsC9 ["pkg/real.py", "contest.py", "latest/a.py"]
        []).untested_files, e.file_path ≠ "contest.py") ∧
    (∀ e ∈ (find_untested_code fsC9 ["pkg/real.py", "contest.py", "latest/a.py"]
        []).untested_functions, e.file_path ≠ "contest.py") ∧
    (∀ e ∈ (find_untested_code fsC9 ["pkg/real.py", "contest.py", "latest/a.py"]
        []).untested_classes, e.file_path ≠ "contest.py") :=
  C9_test_paths_excluded fsC9 ["pkg/real.py", "contest.py", "latest/a.py"] []
    "contest.py" (by rfl)

/-! ## C10: get_function_details searches every depth -/

/-- A definition statement lies in allDefs exactly when its node is a
descendant of the module. -/
theorem mem_allDefs_iff (m : PyModule) (sig : FuncSig) (body : List PyStmt) :
    (PyStmt.functionDef sig body) ∈ allDefs m ↔
      Node.stmt (.functionDef sig body) ∈ nodeNodes (Node.module m.body) := by
  unfold allDefs
  rw [List.mem_filterMap]
  constructor
  · rintro ⟨n, hn, hfs⟩
    match n, hfs with
    | .stmt (.functionDef sig' body'), hfs =>
      simp only [funcStmt?, Option.some.injEq] at hfs
      rw [hfs] at hn
      exact hn
  · intro h
    exact ⟨_, h, rfl⟩

/-- A definition with the requested name exists at some depth exactly
when the walk holds a matching node. -/
theorem exists_named_def_iff (m : PyModule) (fname : String) :
    (∃ s ∈ allDefs m, funcDefName? s = some fname) ↔
      (∃ n ∈ pyWalk m, namedFuncNode fname n = true) := by
  constructor
  · rintro ⟨s, hs, hname⟩
    obtain ⟨n, hn, hfs⟩ := List.mem_filterMap.mp hs
    refine ⟨n, (pyWalk_perm m).mem_iff.mpr hn, ?_⟩
    match n, hfs with
    | .stmt (.functionDef sig' body'), hfs =>
      simp only [funcStmt?, Option.some.injEq] at hfs
      rw [← hfs] at hname
      simp only [funcDefName?, Option.some.injEq] at hname
      simp [namedFuncNode, hname]
  · rintro ⟨n, hn, hmatch⟩
    match n, hmatch with
    | .stmt (.functionDef sig' body'), hmatch =>
      simp only [namedFuncNode, beq_iff_eq] at hmatch
      refine ⟨.functionDef sig' body', ?_, by simp [funcDefName?, hmatch]⟩
      exact List.mem_filterMap.mpr ⟨_, (pyWalk_perm m).mem_iff.mp hn, rfl⟩

/-- C10: get_function_details searches every definition in the file —
class methods and functions nested inside other functions included: if
any definition at any depth bears the requested name it returns the
FunctionInfo of the first matching node in walk order, and the
not-found error is returned exactly when no definition in the file has
that name. -/
theorem C10_get_function_details_any_depth (fs : PyFS) (file_path function_name : String)
    (m : PyModule) (hm : fs file_path = .parsed m) :
    ((∃ s ∈ allDefs m, funcDefName? s = some function_name) →
      ∃ sig body,
        (pyWalk m).find? (namedFuncNode function_name) =
          some (.stmt (.functionDef sig body)) ∧
        sig.name = function_name ∧
        get_function_details fs file_path function_name =
          .ok (extract_function_info sig body)) ∧
    ((∀ s ∈ allDefs m, funcDefName? s ≠ some function_name) →
      get_function_details fs file_path function_name =
        .err ("Function \"" ++ function_name ++ "\" not found in " ++ file_path)) := by
  constructor
  · intro hex
    have hex' := (exists_named_def_iff m function_name).mp hex
    have hsome : ((pyWalk m).find? (namedFuncNode function_name)).isSome := by
      rw [List.find?_isSome]
      obtain ⟨n, hn, hp⟩ := hex'
      exact ⟨n, hn, hp⟩
    obtain ⟨n, hfind⟩ := Option.isSome_iff_exists.mp hsome
    have hpn : namedFuncNode function_name n = true := List.find?_some hfind
    match n, hpn, hfind with
    | .stmt (.functionDef sig body), hpn, hfind =>
      refine ⟨sig, body, hfind, ?_, ?_⟩
      · simpa [namedFuncNode] using hpn
      · simp only [get_function_details, get_ast_from_file, hm, hfind]
  · intro hall
    have hnone : (pyWalk m).find? (namedFuncNode function_name) = none := by
      rw [List.find?_eq_none]
      intro n hn
      intro hp
      have : ∃ n ∈ pyWalk m, namedFuncNode function_name n = true := ⟨n, hn, hp⟩
      obtain ⟨s, hs, hname⟩ := (exists_named_def_iff m function_name).mpr this
      exact hall s hs hname
    simp only [get_function_details, get_ast_from_file, hm, hnone]

/-- C10 witness: a function present only nested inside another function
is found. -/
theorem C10_witness :
    ∃ sig body,
      (pyWalk mC10).find? (namedFuncNode "target") =
        some (.stmt (.functionDef sig body)) ∧
      sig.name = "target" ∧
      get_function_details fsC10 "pkg/nested.py" "target" =
        .ok (extract_function_info sig body) :=
  (C10_get_function_details_any_depth fsC10 "pkg/nested.py" "target" mC10 rfl).1
    (by decide)

/-! ## C3: fixture-name rule versus self-parameter rule -/

/-- When the first parameter is not named self, the parameter scan
returns pytest as soon as any parameter bears a fixture name. -/
theorem paramStage_fixture_wins (firstName : String) (hf : firstName ≠ "self") :
    ∀ params : List ParameterInfo,
      (params.any fun p => fixtureNames.contains p.name) = true →
      paramStage firstName params = some "pytest" := by
  intro params
  induction params with
  | nil => intro h; simp at h
  | cons p rest ih =>
    intro h
    by_cases hfix : p.name ∈ fixtureNames
    · simp [paramStage, hfix]
    · have hrest : (rest.any fun q => fixtureNames.contains q.name) = true := by
        have hcf : fixtureNames.contains p.name = false := by simpa using hfix
        simp only [List.any_cons, hcf, Bool.false_or] at h
        exact h
      simp [paramStage, hfix, hf, ih hrest]

/-- C3 counterexample: a candidate that reaches the parameter rules
(class stage undecided, no pytest decorator) whose parameters are
(self, tmp_path) is classified unittest, not pytest: the self rule
fires before the fixture rule because both live in one left-to-right
scan of the parameter list. -/
theorem C3_counterexample :
    classStage fsC3 "tests/test_c3.py" "test_fx" 1 (fileImports fsC3 "tests/test_c3.py")
      = none ∧
    (decoratorStage (extract_function_info sigC3 [passAt 2]).decorators 0).1 = none ∧
    ((extract_function_info sigC3 [passAt 2]).parameters.any
      fun p => fixtureNames.contains p.name) = true ∧
    detect_framework_context fsC3 "tests/test_c3.py" sigC3
      (extract_function_info sigC3 [passAt 2]) (fileImports fsC3 "tests/test_c3.py")
      = "unittest" := by
  exact ⟨rfl, rfl, by decide, rfl⟩

/-- C3 amended: for a candidate reaching rule 5 whose parameter list
contains a well-known fixture name, the classifier returns pytest
provided the first parameter is not named self; when the first
parameter is self, the self rule fires first during the same scan and
returns unittest. -/
theorem C3_amended_fixture_rule (fs : PyFS) (file_path : String) (sig : FuncSig)
    (func_info : FunctionInfo) (file_imports : List ImportInfo)
    (hA : classStage fs file_path sig.name sig.lineno file_imports = none)
    (hC : (decoratorStage func_info.decorators 0).1 = none)
    (hself : func_info.parameters.head?.map ParameterInfo.name ≠ some "self")
    (hfix : (func_info.parameters.any fun p => fixtureNames.contains p.name) = true) :
    detect_framework_context fs file_path sig func_info file_imports = "pytest" := by
  have hfirst : ((func_info.parameters.head?.map ParameterInfo.name).getD "") ≠ "self" := by
    cases hh : func_info.parameters.head?.map ParameterInfo.name with
    | none => simp
    | some nm =>
      rw [hh] at hself
      simpa using fun he => hself (by rw [he])
  have hps := paramStage_fixture_wins _ hfirst func_info.parameters hfix
  rcases hdec : decoratorStage func_info.decorators 0 with ⟨o, du⟩
  rw [hdec] at hC
  simp only at hC
  subst hC
  simp only [detect_framework_context, hA, hdec, hps]

/-- C3 witness: the amended statement at a candidate whose first
parameter is the fixture tmp_path. -/
theorem C3_witness :
    detect_framework_context fsC3w "tests/test_c3w.py" sigC3w
      (extract_function_info sigC3w [passAt 2]) (fileImports fsC3w "tests/test_c3w.py")
      = "pytest" :=
  C3_amended_fixture_rule fsC3w "tests/test_c3w.py" sigC3w
    (extract_function_info sigC3w [passAt 2]) (fileImports fsC3w "tests/test_c3w.py")
    (by rfl) (by rfl) (by decide) (by decide)

/-! ## C5: framework resolution of suggest_test_cases -/

/-- C5 counterexample: a corpus whose per-function tally is unittest 2
versus pytest 0 (the majority label is unittest) but whose imports
mention pytest; suggest_test_cases without an explicit framework picks
pytest, not the tally majority. -/
theorem C5_counterexample :
    claimedMajorityFramework fsC5 ["tests/test_units.py"] = "unittest" ∧
    frameworkUsage (analyzeTestFunctions fsC5 ["tests/test_units.py"]) = (0, 2) ∧
    suggest_test_cases fsC5 ["tests/test_units.py"] "mod.py" none none none =
      .ok { file_path := "mod.py", framework := "pytest", recommended_framework := "pytest",
            test_suggestions := [] } := by
  exact ⟨rfl, rfl, rfl⟩

/-- C5 amended: when no framework argument is supplied, the chosen
framework comes from the import-derived testing_frameworks set of
get_test_patterns — pytest whenever any test-file import module is
pytest-family, else unittest whenever any is unittest-family, else the
pytest default; the per-function framework tally is never consulted. -/
theorem C5_amended_import_based_resolution (fs : PyFS) (testFiles : List String)
    (file_path : String) (info : ModuleInfo)
    (hparse : parse_module_ast fs file_path = .ok info) :
    ∃ s, suggest_test_cases fs testFiles file_path none none none = .ok s ∧
      s.framework =
        (if (testingFrameworks (analyzeImports fs testFiles)).contains "pytest" then "pytest"
         else if (testingFrameworks (analyzeImports fs testFiles)).contains "unittest" then
           "unittest"
         else "pytest") ∧
      s.recommended_framework = s.framework := by
  unfold suggest_test_cases
  rw [hparse]
  refine ⟨_, rfl, ?_, rfl⟩
  simp [resolveFramework]

/-- C5 witness: the amended statement at the concrete corpus. -/
theorem C5_witness :
    ∃ s, suggest_test_cases fsC5 ["tests/test_units.py"] "mod.py" none none none = .ok s ∧
      s.framework =
        (if (testingFrameworks (analyzeImports fsC5 ["tests/test_units.py"])).contains
            "pytest" then "pytest"
         else if (testingFrameworks (analyzeImports fsC5 ["tests/test_units.py"])).contains
            "unittest" then "unittest"
         else "pytest") ∧
      s.recommended_framework = s.framework :=
  C5_amended_import_based_resolution fsC5 ["tests/test_units.py"] "mod.py"
    { file_path := "mod.py", functions := [], classes := [], imports := [], docstring := none }
    (by rfl)

/-! ## C2: marker detection shape -/

/-- C2 counterexample: a test file containing the call
pytest.mark.slow() — the ns.mark.attr(...) shape of the claim — yields
no marker record at all: the walk branch only fires when the callee
attribute is literally mark. -/
theorem C2_counterexample :
    ((nodeNodes (Node.module mC2.body)).any isNsMarkAttrCall) = true ∧
    analyzeMarkers fsC2 ["tests/test_m.py"] = [] := by
  exact ⟨by decide, rfl⟩

/-- markerOf returns a record exactly for a call node whose callee is
an attribute access named mark. -/
theorem markerOf_eq_some (p : String) (n : Node) (mk : MarkerInfo) :
    markerOf p n = some mk ↔
      ∃ v args ln, n = Node.expr (.call (.attribute v "mark") args ln) ∧
        mk = { name := (match v with | .name id => id | _ => "unknown")
               file_path := p, line_number := ln } := by
  constructor
  · intro h
    rcases n with b | s | e
    · simp [markerOf] at h
    · simp [markerOf] at h
    · rcases e with id | ⟨v, a⟩ | ⟨f, args, ln⟩ | sl | ni | cs
      · simp [markerOf] at h
      · simp [markerOf] at h
      · rcases f with id | ⟨v, attr⟩ | ⟨f', args', ln'⟩ | sl | ni | cs
        · simp [markerOf] at h
        · by_cases hattr : attr = "mark"
          · subst hattr
            simp only [markerOf, beq_self_eq_true, if_true, Option.some.injEq] at h
            exact ⟨v, args, ln, rfl, h.symm⟩
          · have : (attr == "mark") = false := by simpa using hattr
            simp [markerOf, this] at h
        · simp [markerOf] at h
        · simp [markerOf] at h
        · simp [markerOf] at h
        · simp [markerOf] at h
      · simp [markerOf] at h
      · simp [markerOf] at h
      · simp [markerOf] at h
  · rintro ⟨v, args, ln, hn, hmk⟩
    subst hn
    subst hmk
    simp [markerOf]

/-- Markers of one file: a record exists exactly for a walked call node
whose callee is an attribute access named mark, in a file that
parses. -/
theorem mem_markersIn_iff (fs : PyFS) (p : String) (mk : MarkerInfo) :
    mk ∈ markersIn fs p ↔
      ∃ m, fs p = .parsed m ∧
        ∃ v args ln,
          Node.expr (.call (.attribute v "mark") args ln) ∈ nodeNodes (Node.module m.body) ∧
          mk = { name := (match v with | .name id => id | _ => "unknown")
                 file_path := p, line_number := ln } := by
  unfold markersIn get_ast_from_file
  cases hst : fs p with
  | missing => simp [hst]
  | notPython => simp [hst]
  | unreadable msg => simp [hst]
  | syntaxError msg => simp [hst]
  | parsed m0 =>
    simp only [hst, List.mem_filterMap]
    constructor
    · rintro ⟨n, hn, hmk⟩
      obtain ⟨v, args, ln, hshape, hmkeq⟩ := (markerOf_eq_some p n mk).mp hmk
      subst hshape
      exact ⟨m0, rfl, v, args, ln, (pyWalk_perm m0).mem_iff.mp hn, hmkeq⟩
    · rintro ⟨m, hm, v, args, ln, hmem, hmkeq⟩
      cases hm
      refine ⟨Node.expr (.call (.attribute v "mark") args ln),
        (pyWalk_perm m0).mem_iff.mpr hmem, ?_⟩
      exact (markerOf_eq_some p _ mk).mpr ⟨v, args, ln, rfl, hmkeq⟩

/-- C2 amended: across analyze_test_files, a MarkerInfo is recorded
exactly for the call expressions whose callee is an attribute access
whose final attribute is literally mark (the shape expr.mark(...)); the
recorded name is the callee base identifier when that base is a
plain name and "unknown" otherwise; calls of the shape
ns.mark.attr(...) are not recorded. -/
theorem C2_amended_marker_characterization (fs : PyFS) (testFiles : List String)
    (mk : MarkerInfo) :
    mk ∈ analyzeMarkers fs testFiles ↔
      ∃ p ∈ testFiles, ∃ m, fs p = .parsed m ∧
        ∃ v args ln,
          Node.expr (.call (.attribute v "mark") args ln) ∈ nodeNodes (Node.module m.body) ∧
          mk = { name := (match v with | .name id => id | _ => "unknown")
                 file_path := p, line_number := ln } := by
  unfold analyzeMarkers
  rw [List.mem_flatMap]
  constructor
  · rintro ⟨p, hp, hin⟩
    exact ⟨p, hp, (mem_markersIn_iff fs p mk).mp hin⟩
  · rintro ⟨p, hp, hrest⟩
    exact ⟨p, hp, (mem_markersIn_iff fs p mk).mpr hrest⟩

/-- C2 auxiliary witness: a call whose callee attribute is literally
mark is recorded with the base identifier as its name. -/
theorem C2_mark_call_recorded :
    analyzeMarkers fsC2w ["tests/test_w.py"] =
      [{ name := "pytest", file_path := "tests/test_w.py", line_number := 2 }] := by
  rfl

/-! ## C8: exactly one exception suggestion -/

/-- Parameter-derived suggestions never carry the exception type. -/
theorem countExc_paramSuggestions (fname fw : String) (p : ParameterInfo) :
    (paramSuggestions fname fw p).countP (fun t => t.test_type == "exception") = 0 := by
  rcases p with ⟨nm, ty, kind, df⟩
  simp only [paramSuggestions]
  split
  · cases ty with
    | none => rfl
    | some ty' =>
      by_cases h1 : pyIn "str" ty' = true
      · simp [h1]
      · simp only [Bool.not_eq_true] at h1
        by_cases h2 : pyIn "int" ty' = true
        · simp [h1, h2]
        · simp only [Bool.not_eq_true] at h2
          by_cases h3 : pyIn "list" ty' = true
          · simp [h1, h2, h3]
          · simp only [Bool.not_eq_true] at h3
            by_cases h4 : pyIn "dict" ty' = true
            · simp [h1, h2, h3, h4]
            · simp only [Bool.not_eq_true] at h4
              simp [h1, h2, h3, h4]
  · rfl

/-- A flatMap contributes no matches when no element does. -/
theorem countP_flatMap_zero {α β : Type} (f : α → List β) (p : β → Bool) (l : List α)
    (h : ∀ x ∈ l, (f x).countP p = 0) : (l.flatMap f).countP p = 0 := by
  induction l with
  | nil => rfl
  | cons a rest ih =>
    rw [List.flatMap_cons, List.countP_append, h a (by simp), ih]
    intro x hx
    exact h x (by simp [hx])

/-- The exception-type count of generate_function_tests is exactly the
docstring token test: one when the (truthy) docstring contains raise or
exception case-insensitively, zero otherwise. -/
theorem countExc_generate (func : FunctionInfo) (fw : String) :
    (generate_function_tests func fw).countP (fun t => t.test_type == "exception") =
      (match func.docstring with
       | some d =>
         if d.isEmpty then 0
         else if pyIn "raise" (pyLower d) || pyIn "exception" (pyLower d) then 1 else 0
       | none => 0) := by
  have hparams : (func.parameters.flatMap (paramSuggestions func.name fw)).countP
      (fun t => t.test_type == "exception") = 0 :=
    countP_flatMap_zero _ _ _ (fun x _ => countExc_paramSuggestions func.name fw x)
  simp only [generate_function_tests, List.countP_append, List.countP_cons, hparams]
  cases hret : func.return_type with
  | none =>
    cases hd : func.docstring with
    | none => rfl
    | some d =>
      by_cases hde : d.isEmpty = true
      · simp [hde]
      · simp only [Bool.not_eq_true] at hde
        by_cases htok : (pyIn "raise" (pyLower d) || pyIn "exception" (pyLower d)) = true
        · by_cases hasync : (pyIn "async" (pyLower d) || (func.type == "async_function")) = true
          · simp [hde, htok, hasync, List.countP_append]
          · simp only [Bool.not_eq_true] at hasync
            simp [hde, htok, hasync, List.countP_append]
        · simp only [Bool.not_eq_true] at htok
          by_cases hasync : (pyIn "async" (pyLower d) || (func.type == "async_function")) = true
          · simp [hde, htok, hasync, List.countP_append]
          · simp only [Bool.not_eq_true] at hasync
            simp [hde, htok, hasync, List.countP_append]
  | some rt =>
    by_cases hrt : rt.isEmpty = true
    · cases hd : func.docstring with
      | none => simp [hrt]
      | some d =>
        by_cases hde : d.isEmpty = true
        · simp [hrt, hde]
        · simp only [Bool.not_eq_true] at hde
          by_cases htok : (pyIn "raise" (pyLower d) || pyIn "exception" (pyLower d)) = true
          · by_cases hasync : (pyIn "async" (pyLower d) || (func.type == "async_function")) = true
            · simp [hrt, hde, htok, hasync, List.countP_append]
            · simp only [Bool.not_eq_true] at hasync
              simp [hrt, hde, htok, hasync, List.countP_append]
          · simp only [Bool.not_eq_true] at htok
            by_cases hasync : (pyIn "async" (pyLower d) || (func.type == "async_function")) = true
            · simp [hrt, hde, htok, hasync, List.countP_append]
            · simp only [Bool.not_eq_true] at hasync
              simp [hrt, hde, htok, hasync, List.countP_append]
    · simp only [Bool.not_eq_true] at hrt
      cases hd : func.docstring with
      | none => simp [hrt]
      | some d =>
        by_cases hde : d.isEmpty = true
        · simp [hrt, hde]
        · simp only [Bool.not_eq_true] at hde
          by_cases htok : (pyIn "raise" (pyLower d) || pyIn "exception" (pyLower d)) = true
          · by_cases hasync : (pyIn "async" (pyLower d) || (func.type == "async_function")) = true
            · simp [hrt, hde, htok, hasync, List.countP_append]
            · simp only [Bool.not_eq_true] at hasync
              simp [hrt, hde, htok, hasync, List.countP_append]
          · simp only [Bool.not_eq_true] at htok
            by_cases hasync : (pyIn "async" (pyLower d) || (func.type == "async_function")) = true
            · simp [hrt, hde, htok, hasync, List.countP_append]
            · simp only [Bool.not_eq_true] at hasync
              simp [hrt, hde, htok, hasync, List.countP_append]

/-- C8: targeting a function whose docstring contains raise or
exception (case-insensitive), suggest_test_cases emits exactly one
suggestion of type exception. -/
theorem C8_exactly_one_exception_suggestion (fs : PyFS) (testFiles : List String)
    (file_path fname : String) (cn fw0 : Option String) (info : ModuleInfo)
    (func : FunctionInfo)
    (hparse : parse_module_ast fs file_path = .ok info)
    (hfind : info.functions.find? (fun f => f.name == fname) = some func)
    (hdoc : (match func.docstring with
             | some d => pyIn "raise" (pyLower d) || pyIn "exception" (pyLower d)
             | none => false) = true) :
    ∃ s, suggest_test_cases fs testFiles file_path (some fname) cn fw0 = .ok s ∧
      s.test_suggestions.countP (fun t => t.test_type == "exception") = 1 := by
  unfold suggest_test_cases
  rw [hparse]
  simp only [hfind]
  refine ⟨_, rfl, ?_⟩
  rw [countExc_generate]
  cases hds : func.docstring with
  | none => rw [hds] at hdoc; simp at hdoc
  | some d =>
    rw [hds] at hdoc
    have hne : ¬(d.isEmpty = true) := by
      intro hcon
      have hd0 : d = "" := (String.isEmpty_iff d).mp hcon
      subst hd0
      exact absurd hdoc (by decide)
    dsimp only
    rw [if_neg hne, if_pos hdoc]

/-- C8 witness: the function f with docstring mentioning raising gets
exactly one exception suggestion. -/
theorem C8_witness :
    ∃ s, suggest_test_cases fsC8 [] "pkg/r.py" (some "f") none none = .ok s ∧
      s.test_suggestions.countP (fun t => t.test_type == "exception") = 1 := by
  exact C8_exactly_one_exception_suggestion fsC8 [] "pkg/r.py" "f" none none
    { file_path := "pkg/r.py"
      functions := [extract_function_info ⟨"f", false, emptyArgs, [], none, 1⟩
        [.exprStmt (.constStr "Raises ValueError on bad input.") 2, passAt 3]]
      classes := [], imports := [], docstring := none }
    (extract_function_info ⟨"f", false, emptyArgs, [], none, 1⟩
      [.exprStmt (.constStr "Raises ValueError on bad input.") 2, passAt 3])
    (by rfl) (by rfl) (by decide)

/-! ## C1: the definition partition of parse_module_ast -/

/-- Coercion of a flatMap to a multiset is the sum of the coerced
pieces. -/
theorem coe_flatMap_sum {α β : Type} (L : List α) (h : α → List β) :
    (↑(L.flatMap h) : Multiset β) = (L.map fun a => (↑(h a) : Multiset β)).sum := by
  induction L with
  | nil => simp
  | cons a t ih => simp [ih, ← Multiset.coe_add]

/-- Pointwise sums of multisets split. -/
theorem sum_map_add_multiset {α β : Type} (l : List α) (f g : α → Multiset β) :
    (l.map fun c => f c + g c).sum = (l.map f).sum + (l.map g).sum := by
  induction l with
  | nil => simp
  | cons a t ih => simp only [List.map_cons, List.sum_cons, ih]; abel

/-- isMethodNode holds exactly when some walked ClassDef directly
contains the statement. -/
theorem isMethodNode_iff (walked : List Node) (s : PyStmt) :
    isMethodNode walked s = true ↔
      ∃ cname bases decos ln body,
        Node.stmt (.classDef cname bases decos ln body) ∈ walked ∧ s ∈ body := by
  unfold isMethodNode
  rw [List.any_eq_true]
  constructor
  · rintro ⟨n, hn, hpred⟩
    match n, hpred with
    | .stmt (.classDef cname bases decos ln body), hpred =>
      simp only [List.any_eq_true] at hpred
      obtain ⟨t, ht, hbeq⟩ := hpred
      exact ⟨cname, bases, decos, ln, body, hn, ((pyStmtBeq_iff t s).mp hbeq) ▸ ht⟩
  · rintro ⟨cname, bases, decos, ln, body, hmem, hs⟩
    refine ⟨_, hmem, ?_⟩
    simp only [List.any_eq_true]
    exact ⟨s, hs, (pyStmtBeq_iff s s).mpr rfl⟩

/-- A statement produced by funcStmt? is a FunctionDef. -/
theorem isFuncStmt_of_funcStmt? (n : Node) (s : PyStmt) (h : funcStmt? n = some s) :
    isFuncStmt s = true := by
  match n, h with
  | .stmt (.functionDef sig body), h =>
    simp only [funcStmt?, Option.some.injEq] at h
    rw [← h]
    rfl

/-- The per-class function statements are bounded by the head
contributions of the children. -/
theorem bodyFuncs_le_children_heads (n : Node) :
    (↑(bodyFuncsOf n) : Multiset PyStmt) ≤
      ((children n).map fun c => (↑(funcStmt? c).toList : Multiset PyStmt)).sum := by
  match n with
  | .module body => simp [bodyFuncsOf]
  | .expr e => simp [bodyFuncsOf]
  | .stmt (.functionDef sig body) => simp [bodyFuncsOf]
  | .stmt (.exprStmt v ln) => simp [bodyFuncsOf]
  | .stmt (.importStmt ns ln) => simp [bodyFuncsOf]
  | .stmt (.importFrom mo ns lv ln) => simp [bodyFuncsOf]
  | .stmt (.assign ts v ln) => simp [bodyFuncsOf]
  | .stmt (.annAssign t ann v ln) => simp [bodyFuncsOf]
  | .stmt (.otherStmt es body ln) => simp [bodyFuncsOf]
  | .stmt (.classDef cname bases decos ln body) =>
    have hstmts : ∀ l : List PyStmt,
        ((l.map Node.stmt).map fun c => (↑(funcStmt? c).toList : Multiset PyStmt)).sum =
          ↑(l.filter isFuncStmt) := by
      intro l
      induction l with
      | nil => simp
      | cons s rest ih =>
        match s with
        | .functionDef sig' body' =>
          simp only [List.map_cons, List.sum_cons, ih, List.filter_cons]
          simp [funcStmt?, isFuncStmt, ← Multiset.cons_coe]
        | .classDef a b c d e =>
          simp only [List.map_cons, List.sum_cons, ih, List.filter_cons]
          simp [funcStmt?, isFuncStmt]
        | .exprStmt a b =>
          simp only [List.map_cons, List.sum_cons, ih, List.filter_cons]
          simp [funcStmt?, isFuncStmt]
        | .importStmt a b =>
          simp only [List.map_cons, List.sum_cons, ih, List.filter_cons]
          simp [funcStmt?, isFuncStmt]
        | .importFrom a b c d =>
          simp only [List.map_cons, List.sum_cons, ih, List.filter_cons]
          simp [funcStmt?, isFuncStmt]
        | .assign a b c =>
          simp only [List.map_cons, List.sum_cons, ih, List.filter_cons]
          simp [funcStmt?, isFuncStmt]
        | .annAssign a b c d =>
          simp only [List.map_cons, List.sum_cons, ih, List.filter_cons]
          simp [funcStmt?, isFuncStmt]
        | .otherStmt a b c =>
          simp only [List.map_cons, List.sum_cons, ih, List.filter_cons]
          simp [funcStmt?, isFuncStmt]
    have hexprs : ∀ l : List PyExpr,
        ((l.map Node.expr).map fun c => (↑(funcStmt? c).toList : Multiset PyStmt)).sum = 0 := by
      intro l
      refine List.sum_eq_zero ?_
      intro x hx
      obtain ⟨c, hc1, hc2⟩ := List.mem_map.mp hx
      obtain ⟨e, he1, he2⟩ := List.mem_map.mp hc1
      rw [← hc2, ← he2]
      simp [funcStmt?]
    simp only [bodyFuncsOf, children, List.map_append, List.sum_append, hstmts, hexprs]
    simp

/-- Every child has strictly fewer descendants than its parent. -/
theorem nodeNodes_child_length_lt (n c : Node) (hc : c ∈ children n) :
    (nodeNodes c).length < (nodeNodes n).length := by
  conv_rhs => rw [nodeNodes_eq n]
  simp only [List.length_cons, List.length_flatMap, List.map_map, Function.comp_def]
  have hmem : (nodeNodes c).length ∈ ((children n).map fun x => (nodeNodes x).length) :=
    List.mem_map.mpr ⟨c, hc, rfl⟩
  have hle := List.le_sum_of_mem hmem
  omega

/-- The central inequality: over the descendants of any node, the
function statements contributed by class bodies form a sub-multiset of
the function statements below the node (the head contribution set
aside). -/
theorem classContrib_le_funcs (n : Node) :
    (↑(funcStmt? n).toList : Multiset PyStmt) + ↑((nodeNodes n).flatMap bodyFuncsOf) ≤
      ↑((nodeNodes n).filterMap funcStmt?) := by
  generalize hk : (nodeNodes n).length = k
  induction k using Nat.strong_induction_on generalizing n with
  | _ k ih =>
  subst hk
  rw [List.filterMap_eq_flatMap_toList]
  conv_lhs => rw [nodeNodes_eq n]
  conv_rhs => rw [nodeNodes_eq n]
  rw [List.flatMap_cons, List.flatMap_cons, List.flatMap_assoc, List.flatMap_assoc]
  have hL : (↑(bodyFuncsOf n ++
        (children n).flatMap fun x => (nodeNodes x).flatMap bodyFuncsOf) : Multiset PyStmt) =
      ↑(bodyFuncsOf n) +
        ((children n).map fun c =>
          (↑((nodeNodes c).flatMap bodyFuncsOf) : Multiset PyStmt)).sum := by
    rw [← Multiset.coe_add]
    congr 1
    exact coe_flatMap_sum _ _
  have hR : (↑((funcStmt? n).toList ++
        (children n).flatMap fun x => (nodeNodes x).flatMap fun a => (funcStmt? a).toList) :
        Multiset PyStmt) =
      ↑(funcStmt? n).toList +
        ((children n).map fun c =>
          (↑((nodeNodes c).flatMap fun a => (funcStmt? a).toList) : Multiset PyStmt)).sum := by
    rw [← Multiset.coe_add]
    congr 1
    exact coe_flatMap_sum _ _
  rw [hL, hR]
  refine add_le_add_left ?_ _
  have hchild : ∀ c ∈ children n,
      (↑(funcStmt? c).toList : Multiset PyStmt) + ↑((nodeNodes c).flatMap bodyFuncsOf) ≤
        ↑((nodeNodes c).filterMap funcStmt?) := by
    intro c hc
    exact ih (nodeNodes c).length (nodeNodes_child_length_lt n c hc) c rfl
  have hsum :
      ((children n).map fun c =>
          (↑(funcStmt? c).toList : Multiset PyStmt) + ↑((nodeNodes c).flatMap bodyFuncsOf)).sum ≤
        ((children n).map fun c =>
          (↑((nodeNodes c).flatMap fun a => (funcStmt? a).toList) : Multiset PyStmt)).sum := by
    refine List.sum_le_sum ?_
    intro c hc
    have h1 := hchild c hc
    rwa [List.filterMap_eq_flatMap_toList] at h1
  rw [sum_map_add_multiset] at hsum
  have hheads := bodyFuncs_le_children_heads n
  calc (↑(bodyFuncsOf n) : Multiset PyStmt) +
        ((children n).map fun c => (↑((nodeNodes c).flatMap bodyFuncsOf) : Multiset PyStmt)).sum
      ≤ ((children n).map fun c => (↑(funcStmt? c).toList : Multiset PyStmt)).sum +
          ((children n).map fun c =>
            (↑((nodeNodes c).flatMap bodyFuncsOf) : Multiset PyStmt)).sum :=
        add_le_add_right hheads _
    _ ≤ ((children n).map fun c =>
          (↑((nodeNodes c).flatMap fun a => (funcStmt? a).toList) : Multiset PyStmt)).sum :=
        hsum

/-- Membership in bodyFuncsOf forces a class node and a function
statement of its body. -/
theorem mem_bodyFuncsOf (n : Node) (s : PyStmt) (h : s ∈ bodyFuncsOf n) :
    ∃ c1 c2 c3 c4 body, n = Node.stmt (.classDef c1 c2 c3 c4 body) ∧ s ∈ body := by
  match n with
  | .module body => simp [bodyFuncsOf] at h
  | .expr e => simp [bodyFuncsOf] at h
  | .stmt (.functionDef sig body) => simp [bodyFuncsOf] at h
  | .stmt (.exprStmt v ln) => simp [bodyFuncsOf] at h
  | .stmt (.importStmt ns ln) => simp [bodyFuncsOf] at h
  | .stmt (.importFrom mo ns lv ln) => simp [bodyFuncsOf] at h
  | .stmt (.assign ts v ln) => simp [bodyFuncsOf] at h
  | .stmt (.annAssign t ann v ln) => simp [bodyFuncsOf] at h
  | .stmt (.otherStmt es body ln) => simp [bodyFuncsOf] at h
  | .stmt (.classDef c1 c2 c3 c4 body) =>
    exact ⟨c1, c2, c3, c4, body, rfl, List.mem_of_mem_filter h⟩

/-- methods and properties of extract_class_info partition the direct
function statements of the class body. -/
theorem partition_methods_properties (cname : String) (bases decos : List PyExpr)
    (ln : Nat) (body : List PyStmt) :
    (extract_class_info cname bases decos ln body).methods.length +
      (extract_class_info cname bases decos ln body).properties.length
      = (body.filter isFuncStmt).length := by
  simp only [extract_class_info]
  induction body with
  | nil => rfl
  | cons s rest ih =>
    match s with
    | .functionDef sig' body' =>
      by_cases hp : isPropertyDecorated sig'.decorators = true
      · simp [List.filterMap_cons, List.filter_cons, hp, isFuncStmt]
        omega
      · simp only [Bool.not_eq_true] at hp
        simp [List.filterMap_cons, List.filter_cons, hp, isFuncStmt]
        omega
    | .classDef a b c d e =>
      simpa [List.filterMap_cons, List.filter_cons, isFuncStmt] using ih
    | .exprStmt a b =>
      simpa [List.filterMap_cons, List.filter_cons, isFuncStmt] using ih
    | .importStmt a b =>
      simpa [List.filterMap_cons, List.filter_cons, isFuncStmt] using ih
    | .importFrom a b c d =>
      simpa [List.filterMap_cons, List.filter_cons, isFuncStmt] using ih
    | .assign a b c =>
      simpa [List.filterMap_cons, List.filter_cons, isFuncStmt] using ih
    | .annAssign a b c d =>
      simpa [List.filterMap_cons, List.filter_cons, isFuncStmt] using ih
    | .otherStmt a b c =>
      simpa [List.filterMap_cons, List.filter_cons, isFuncStmt] using ih

/-- The methods plus properties of the collected classes count exactly
the class-body function statements over a node list. -/
theorem sum_classes_eq (L : List Node) :
    ((L.filterMap fun n => match n with
        | .stmt (.classDef nm bases decos ln body) =>
            some (extract_class_info nm bases decos ln body)
        | _ => none).map fun c => c.methods.length).sum
      + ((L.filterMap fun n => match n with
        | .stmt (.classDef nm bases decos ln body) =>
            some (extract_class_info nm bases decos ln body)
        | _ => none).map fun c => c.properties.length).sum
      = (L.flatMap bodyFuncsOf).length := by
  induction L with
  | nil => rfl
  | cons n rest ih =>
    match n with
    | .module body => simpa [List.filterMap_cons, bodyFuncsOf] using ih
    | .expr e => simpa [List.filterMap_cons, bodyFuncsOf] using ih
    | .stmt (.functionDef sig body) => simpa [List.filterMap_cons, bodyFuncsOf] using ih
    | .stmt (.exprStmt v ln) => simpa [List.filterMap_cons, bodyFuncsOf] using ih
    | .stmt (.importStmt ns ln) => simpa [List.filterMap_cons, bodyFuncsOf] using ih
    | .stmt (.importFrom mo ns lv ln) => simpa [List.filterMap_cons, bodyFuncsOf] using ih
    | .stmt (.assign ts v ln) => simpa [List.filterMap_cons, bodyFuncsOf] using ih
    | .stmt (.annAssign t ann v ln) => simpa [List.filterMap_cons, bodyFuncsOf] using ih
    | .stmt (.otherStmt es body ln) => simpa [List.filterMap_cons, bodyFuncsOf] using ih
    | .stmt (.classDef c1 c2 c3 c4 body) =>
      have hpart := partition_methods_properties c1 c2 c3 c4 body
      simp only [List.filterMap_cons, List.flatMap_cons, bodyFuncsOf, List.map_cons,
        List.sum_cons, List.length_append]
      omega

/-- The functions list of parse_module_ast counts the walked function
statements that are not direct members of a walked class body. -/
theorem functions_length_eq (W0 : List Node) (L : List Node) :
    (L.filterMap fun n => match n with
      | .stmt (.functionDef sig body) =>
        if isMethodNode W0 (.functionDef sig body) then none
        else some (extract_function_info sig body)
      | _ => none).length
    = ((L.filterMap funcStmt?).filter fun s => !isMethodNode W0 s).length := by
  induction L with
  | nil => rfl
  | cons n rest ih =>
    match n with
    | .module body => simpa [List.filterMap_cons, funcStmt?] using ih
    | .expr e => simpa [List.filterMap_cons, funcStmt?] using ih
    | .stmt (.exprStmt v ln) => simpa [List.filterMap_cons, funcStmt?] using ih
    | .stmt (.importStmt ns ln) => simpa [List.filterMap_cons, funcStmt?] using ih
    | .stmt (.importFrom mo ns lv ln) => simpa [List.filterMap_cons, funcStmt?] using ih
    | .stmt (.assign ts v ln) => simpa [List.filterMap_cons, funcStmt?] using ih
    | .stmt (.annAssign t ann v ln) => simpa [List.filterMap_cons, funcStmt?] using ih
    | .stmt (.otherStmt es body ln) => simpa [List.filterMap_cons, funcStmt?] using ih
    | .stmt (.classDef c1 c2 c3 c4 body) => simpa [List.filterMap_cons, funcStmt?] using ih
    | .stmt (.functionDef sig body) =>
      by_cases hm : isMethodNode W0 (.functionDef sig body) = true
      · simpa [List.filterMap_cons, funcStmt?, List.filter_cons, hm] using ih
      · simp only [Bool.not_eq_true] at hm
        simp only [List.filterMap_cons, funcStmt?, List.filter_cons, hm, Bool.false_eq_true,
          if_false, Bool.not_false, if_true, List.length_cons]
        omega

/-- Under pairwise-distinct definitions, the class-body contributions
over the descendants count exactly the definitions classified as
methods. -/
theorem methods_count_eq (m : PyModule) (hnd : (allDefs m).Nodup) :
    ((nodeNodes (Node.module m.body)).flatMap bodyFuncsOf).length
      = ((allDefs m).filter fun s => isMethodNode (pyWalk m) s).length := by
  have hle : (↑((nodeNodes (Node.module m.body)).flatMap bodyFuncsOf) : Multiset PyStmt) ≤
      ↑((nodeNodes (Node.module m.body)).filterMap funcStmt?) := by
    have h := classContrib_le_funcs (Node.module m.body)
    simpa [funcStmt?] using h
  have hAnodup : ((nodeNodes (Node.module m.body)).flatMap bodyFuncsOf).Nodup := by
    have h := Multiset.nodup_of_le hle (Multiset.coe_nodup.mpr hnd)
    exact Multiset.coe_nodup.mp h
  have hMnodup : ((allDefs m).filter fun s => isMethodNode (pyWalk m) s).Nodup :=
    hnd.filter _
  have hmemiff : ∀ s, s ∈ (nodeNodes (Node.module m.body)).flatMap bodyFuncsOf ↔
      s ∈ (allDefs m).filter fun s => isMethodNode (pyWalk m) s := by
    intro s
    constructor
    · intro hs
      obtain ⟨n, hn, hsn⟩ := List.mem_flatMap.mp hs
      rw [List.mem_filter]
      constructor
      · have h1 : s ∈ (↑((nodeNodes (Node.module m.body)).flatMap bodyFuncsOf) :
            Multiset PyStmt) := by simpa using hs
        have h2 := Multiset.mem_of_le hle h1
        simpa [allDefs] using h2
      · obtain ⟨c1, c2, c3, c4, body, hcl, hsb⟩ := mem_bodyFuncsOf n s hsn
        subst hcl
        rw [isMethodNode_iff]
        exact ⟨c1, c2, c3, c4, body, (pyWalk_perm m).mem_iff.mpr hn, hsb⟩
    · intro hs
      rw [List.mem_filter] at hs
      obtain ⟨hsF, hsM⟩ := hs
      obtain ⟨c1, c2, c3, c4, body, hcls, hsb⟩ := (isMethodNode_iff _ s).mp hsM
      have hfunc : isFuncStmt s = true := by
        obtain ⟨n', hn', hfs⟩ := List.mem_filterMap.mp (by simpa [allDefs] using hsF)
        exact isFuncStmt_of_funcStmt? n' s hfs
      refine List.mem_flatMap.mpr
        ⟨Node.stmt (.classDef c1 c2 c3 c4 body), (pyWalk_perm m).mem_iff.mp hcls, ?_⟩
      simp only [bodyFuncsOf]
      exact List.mem_filter.mpr ⟨hsb, hfunc⟩
  exact ((List.perm_ext_iff_of_nodup hAnodup hMnodup).mpr hmemiff).length_eq

/-- C1 amended: for a parsed source whose definition nodes are pairwise
distinct (true of every real file, whose definitions differ at least in
position), the top-level functions of parse_module_ast plus the methods
plus the properties of all collected classes count every
function/method definition at any nesting depth exactly once. -/
theorem C1_amended_partition (fs : PyFS) (file_path : String) (m : PyModule)
    (info : ModuleInfo)
    (hm : fs file_path = .parsed m)
    (hok : parse_module_ast fs file_path = .ok info)
    (hdist : distinctList PyStmt.beq (allDefs m) = true) :
    info.functions.length
      + (info.classes.map fun c => c.methods.length).sum
      + (info.classes.map fun c => c.properties.length).sum
    = (allDefs m).length := by
  have hnd : (allDefs m).Nodup := (distinctList_iff_nodup _).mp hdist
  simp only [parse_module_ast, get_ast_from_file, hm] at hok
  injection hok with hinfo
  subst hinfo
  simp only []
  rw [functions_length_eq (pyWalk m) (pyWalk m)]
  rw [Nat.add_assoc, sum_classes_eq (pyWalk m)]
  have hstep3 : ((pyWalk m).flatMap bodyFuncsOf).length =
      ((nodeNodes (Node.module m.body)).flatMap bodyFuncsOf).length := by
    rw [List.length_flatMap, List.length_flatMap]
    have hp : List.Perm ((pyWalk m).map fun n => (bodyFuncsOf n).length)
        ((nodeNodes (Node.module m.body)).map fun n => (bodyFuncsOf n).length) :=
      (pyWalk_perm m).map _
    simpa [List.map_map, Function.comp_def] using hp.sum_eq
  have hstep5 : (((pyWalk m).filterMap funcStmt?).filter fun s =>
      !isMethodNode (pyWalk m) s).length =
      ((allDefs m).filter fun s => !isMethodNode (pyWalk m) s).length := by
    have hp : List.Perm ((pyWalk m).filterMap funcStmt?)
        ((nodeNodes (Node.module m.body)).filterMap funcStmt?) :=
      (pyWalk_perm m).filterMap _
    exact (hp.filter _).length_eq
  rw [hstep5, hstep3, methods_count_eq m hnd]
  have hsplit : ((allDefs m).filter fun s => !isMethodNode (pyWalk m) s).length
      + ((allDefs m).filter fun s => isMethodNode (pyWalk m) s).length
      = (allDefs m).length := by
    rw [← List.countP_eq_length_filter, ← List.countP_eq_length_filter]
    have h := List.length_eq_countP_add_countP (fun s => isMethodNode (pyWalk m) s)
      (l := allDefs m)
    have hcong : (allDefs m).countP (fun s => decide ¬(isMethodNode (pyWalk m) s = true))
        = (allDefs m).countP fun s => !isMethodNode (pyWalk m) s := by
      refine List.countP_congr ?_
      intro s _
      simp
    omega
  omega

/-- C1 counterexample: a class whose only definition is a
property-decorated accessor.  parse_module_ast yields no top-level
functions and a class whose methods list is empty (the definition sits
in the properties list), so functions plus methods is 0 while the file
holds one definition. -/
theorem C1_counterexample :
    (∃ info, parse_module_ast fsC1 "pkg/props.py" = .ok info ∧
      info.functions.length + (info.classes.map fun c => c.methods.length).sum = 0 ∧
      (info.classes.map fun c => c.properties.length).sum = 1) ∧
    (allDefs mC1).length = 1 := by
  exact ⟨⟨_, rfl, rfl, rfl⟩, rfl⟩

/-- C1 witness: the amended partition at a file with a top-level
function, a nested function, a plain method and a property. -/
theorem C1_witness :
    distinctList PyStmt.beq (allDefs mC1w) = true ∧
    ∃ info, parse_module_ast fsC1w "pkg/mix.py" = .ok info ∧
      info.functions.length
        + (info.classes.map fun c => c.methods.length).sum
        + (info.classes.map fun c => c.properties.length).sum
      = (allDefs mC1w).length := by
  refine ⟨by decide, ⟨_, rfl, ?_⟩⟩
  exact C1_amended_partition fsC1w "pkg/mix.py" mC1w _ rfl rfl (by decide)
